import Mathlib

/-!
# pyxivo: the Python binding of the XIVO estimator

A shallow embedding of `src/pybind11/pyxivo.cpp`.

The file defines one class, `EstimatorWrapper`, and one pybind11 module,
`pyxivo`.  The wrapper owns an estimator and an optional viewer and forwards
every call to them.  The estimator, the viewer, the canvas singleton, the JSON
loader, the image reader and the Lie-group value classes come from headers
that are not part of the embedded source; they are taken as a record of
operations (`Xivo`), each one a state transformer on the object it is called
on, so that nothing is assumed about them beyond their call shape.

Calls that leave the wrapper (logging, estimator intake, canvas read, viewer
calls) are recorded, in program order, in a ghost trace kept in the process
state; the trace is never read by the embedded code.
-/

namespace PyXivo

/-! ## Values moved across the binding -/

/-- A C++ `double`, identified by its bit pattern.  The wrapper performs no
arithmetic on doubles; it only moves them. -/
structure F64 where
  bits : Nat
deriving DecidableEq, Repr

/-- The scalar type `number_t` of the estimator (a double). -/
abbrev number_t := F64

/-- An `Eigen` 3-vector of doubles, built in C++ as `{x, y, z}`. -/
structure Vec3 where
  x : F64
  y : F64
  z : F64
deriving DecidableEq, Repr

/-- A dense matrix of doubles, as the list of its rows. -/
abbrev MatX := List (List F64)

/-- A 3x3 matrix of doubles. -/
abbrev Mat3 := MatX

/-- A 3x4 matrix of doubles (`Eigen::Matrix<double, 3, 4>`). -/
abbrev Mat34 := MatX

/-- A dense matrix of `int`. -/
abbrev MatXi := List (List Int)

/-- Modelled from the spec: `timestamp_t` is declared in a header outside the
embedded source; the spec describes a timestamp as an integer tick, so it is
a record holding its tick count, built by `timestamp_t{ts}` and read back by
`count()`. -/
structure timestamp_t where
  count : Nat
deriving DecidableEq, Repr

/-- Modelled from the spec: the result classes of the estimator's intake,
which is declared outside the embedded source.  The spec's error taxonomy
names the recoverable and fatal signals; `Ok` is the accepted sample. -/
inductive Status where
  | Ok
  | OutOfOrderSample
  | TrackLost
  | TriangulationFailure
  | OutlierRejected
  | NumericalDegeneracy
deriving DecidableEq, Repr

/-- Element types of an OpenCV matrix that occur in the wrapper. -/
inductive CvType where
  | CV_8UC3
  | CV_32S
deriving DecidableEq, Repr

/-- An OpenCV matrix header `cv::Mat`: the declared number of rows and
columns, the element type, and the memory its data pointer refers to, as the
list of elements that are really there. -/
structure CvMat where
  rows : Nat
  cols : Nat
  type : CvType
  data : List Int
deriving DecidableEq, Repr

/-- The element `(r, c)` of a continuous `cv::Mat`: it is read at offset
`r * cols + c` from the data pointer.  `none` means the read leaves the
memory behind the pointer. -/
def CvMat.read (m : CvMat) (r c : Nat) : Option Int :=
  m.data[r * m.cols + c]?

/-- The test `cv::Mat::empty()`: no data or no elements. -/
def CvMat.empty (m : CvMat) : Bool :=
  m.data.isEmpty || m.rows * m.cols == 0

/-- A `py::array_t<int, c_style | forcecast>` argument: an array of `int`
with its shape and its flattened C-order buffer. -/
structure PyArray where
  shape : List Nat
  buffer : List Int
deriving DecidableEq, Repr

/-- The result of `b.request()`: the buffer description of an array.  Only
`ptr` is read by the wrapper. -/
structure buffer_info where
  ptr : List Int
  shape : List Nat
deriving DecidableEq, Repr

/-- The call `b.request()` on an array argument. -/
def PyArray.request (b : PyArray) : buffer_info :=
  { ptr := b.buffer, shape := b.shape }

/-! ## The collaborators of the wrapper -/

/-- The operations of the XIVO library that `pyxivo.cpp` calls.  `E` is the
estimator object, `V` the viewer object, `C` the `Canvas` singleton, `G` the
rigid-transform class returned by `gsb`/`gsc`/`gbc`, `S` the rotation class
returned by `Rg`, `J` a parsed JSON configuration.  Member functions are
state transformers on their receiver: nothing in the C++ call syntax says
that they are read-only. -/
structure Xivo (E V C G S J : Type) where
  LoadJson : String → J
  CreateSystem : J → E
  Viewer_new : J → String → V
  imread : String → CvMat
  Estimator_InertialMeas : E → C → timestamp_t → Vec3 → Vec3 → Status × E × C
  Estimator_VisualMeas : E → C → timestamp_t → CvMat → Status × E × C
  gsb : E → G × E
  gsc : E → G × E
  gbc : E → G × E
  Pstate : E → MatX × E
  Vsb : E → Vec3 × E
  bg : E → Vec3 × E
  ba : E → Vec3 × E
  Rg : E → S × E
  td : E → number_t × E
  Ca : E → Mat3 × E
  Cg : E → Mat3 × E
  MeasurementUpdateInitialized : E → Bool × E
  inn_Wsb : E → Vec3 × E
  inn_Tsb : E → Vec3 × E
  inn_Vsb : E → Vec3 × E
  ts : E → timestamp_t × E
  gauge_group : E → Int × E
  InstateFeaturePositions : E → Int → MatX × E
  InstateFeatureCovs : E → Int → MatX × E
  InstateFeatureIDs : E → Int → MatXi × E
  num_instate_features : E → Int × E
  matrix3x4 : G → Mat34
  matrix : S → Mat3
  display : C → CvMat × C
  Update_gsb : V → G → V
  Update_gsc : V → G → V
  Update : V → CvMat → V
  Refresh : V → V

/-- A call that leaves the wrapper, as recorded in the ghost trace. -/
inductive Event (G : Type) where
  | InitGoogleLogging (argv0 : String)
  | LoadJson (path : String)
  | CreateSystem
  | Viewer_new (name : String)
  | imread (path : String)
  | Estimator_InertialMeas (ts : timestamp_t) (gyro accel : Vec3)
  | Estimator_VisualMeas (ts : timestamp_t) (image : CvMat)
  | Canvas_display
  | LOG_INFO (msg : String)
  | Viewer_Update_gsb (g : G)
  | Viewer_Update_gsc (g : G)
  | Viewer_Update (disp : CvMat)
  | Viewer_Refresh
deriving DecidableEq, Repr

/-- Is the event a call on the viewer (construction included)? -/
def Event.isViewer {G : Type} : Event G → Bool
  | .Viewer_new _ => true
  | .Viewer_Update_gsb _ => true
  | .Viewer_Update_gsc _ => true
  | .Viewer_Update _ => true
  | .Viewer_Refresh => true
  | _ => false

/-- Is the event the logging initialisation? -/
def Event.isInitGoogleLogging {G : Type} : Event G → Bool
  | .InitGoogleLogging _ => true
  | _ => false

/-- Is the event a call of the estimator's inertial intake? -/
def Event.isInertialIntake {G : Type} : Event G → Bool
  | .Estimator_InertialMeas _ _ _ => true
  | _ => false

/-- Is the event a call of the estimator's visual intake? -/
def Event.isVisualIntake {G : Type} : Event G → Bool
  | .Estimator_VisualMeas _ _ => true
  | _ => false

/-- The state shared by all wrappers of one process: the static member
`EstimatorWrapper::glog_init_`, the `Canvas` singleton, and the ghost trace
of outgoing calls. -/
structure Process (C G : Type) where
  glog_init_ : Bool
  canvas : C
  trace : List (Event G)

/-- Record an outgoing call. -/
def Process.emit {C G : Type} (p : Process C G) (e : Event G) : Process C G :=
  { p with trace := p.trace ++ [e] }

/-- The process state at load time: `bool EstimatorWrapper::glog_init_{false}`
and nothing called yet. -/
def Process.init {C G : Type} (canvas : C) : Process C G :=
  { glog_init_ := false, canvas := canvas, trace := [] }

/-- The data members of `class EstimatorWrapper` (the static `glog_init_`
lives in `Process`). -/
structure EstimatorWrapper (E V : Type) where
  estimator_ : E
  viewer_ : Option V
  name_ : String
  imu_calls_ : Int
  visual_calls_ : Int

namespace EstimatorWrapper

variable {E V C G S J : Type}

/-- The constructor `EstimatorWrapper(cfg_path, viewer_cfg_path, name)`. -/
def new (x : Xivo E V C G S J) (p : Process C G)
    (cfg_path viewer_cfg_path name : String) :
    Process C G × EstimatorWrapper E V :=
  -- if (!glog_init_) { google::InitGoogleLogging("pyxivo"); glog_init_ = true; }
  let p1 : Process C G :=
    if !p.glog_init_ then
      { (p.emit (.InitGoogleLogging "pyxivo")) with glog_init_ := true }
    else p
  -- auto cfg = LoadJson(cfg_path); estimator_ = CreateSystem(cfg);
  let cfg := x.LoadJson cfg_path
  let p2 := p1.emit (.LoadJson cfg_path)
  let est := x.CreateSystem cfg
  let p3 := p2.emit .CreateSystem
  -- if (!viewer_cfg_path.empty()) { ... viewer_ = new Viewer{viewer_cfg, name}; }
  if !viewer_cfg_path.isEmpty then
    let viewer_cfg := x.LoadJson viewer_cfg_path
    let p4 := p3.emit (.LoadJson viewer_cfg_path)
    let v := x.Viewer_new viewer_cfg name
    let p5 := p4.emit (.Viewer_new name)
    (p5, { estimator_ := est, viewer_ := some v, name_ := name,
           imu_calls_ := 0, visual_calls_ := 0 })
  else
    (p3, { estimator_ := est, viewer_ := none, name_ := name,
           imu_calls_ := 0, visual_calls_ := 0 })

/-- The member `void InertialMeas(ts, wx, wy, wz, ax, ay, az)`. -/
def InertialMeas (x : Xivo E V C G S J) (p : Process C G)
    (w : EstimatorWrapper E V) (ts : Nat) (wx wy wz ax ay az : F64) :
    Process C G × EstimatorWrapper E V :=
  -- estimator_->InertialMeas(timestamp_t{ts}, {wx, wy, wz}, {ax, ay, az});
  let r := x.Estimator_InertialMeas w.estimator_ p.canvas (timestamp_t.mk ts)
    (Vec3.mk wx wy wz) (Vec3.mk ax ay az)
  let p1 : Process C G :=
    { (p.emit (.Estimator_InertialMeas (timestamp_t.mk ts) (Vec3.mk wx wy wz)
        (Vec3.mk ax ay az))) with canvas := r.2.2 }
  let e1 := r.2.1
  match w.viewer_ with
  | some v =>
    -- viewer_->Update_gsb(estimator_->gsb());
    let g1 := x.gsb e1
    let v1 := x.Update_gsb v g1.1
    let p2 := p1.emit (.Viewer_Update_gsb g1.1)
    -- viewer_->Update_gsc(estimator_->gsc());
    let g2 := x.gsc g1.2
    let v2 := x.Update_gsc v1 g2.1
    let p3 := p2.emit (.Viewer_Update_gsc g2.1)
    (p3, { w with estimator_ := g2.2, viewer_ := some v2 })
  | none => (p1, { w with estimator_ := e1 })

/-- The block shared by `VisualMeas` and `VisualMeas2` after the estimator
call: `if (viewer_) { auto disp = Canvas::instance()->display();
if (!disp.empty()) { LOG(INFO) << ...; viewer_->Update(disp); } }`. -/
def showDisplay (x : Xivo E V C G S J) (p : Process C G)
    (w : EstimatorWrapper E V) : Process C G × EstimatorWrapper E V :=
  match w.viewer_ with
  | some v =>
    let d := x.display p.canvas
    let p1 : Process C G := { (p.emit .Canvas_display) with canvas := d.2 }
    if !d.1.empty then
      let p2 := p1.emit (.LOG_INFO "Display image is ready")
      let v1 := x.Update v d.1
      let p3 := p2.emit (.Viewer_Update d.1)
      (p3, { w with viewer_ := some v1 })
    else (p1, w)
  | none => (p, w)

/-- The member `void VisualMeas(ts, image_path)`. -/
def VisualMeas (x : Xivo E V C G S J) (p : Process C G)
    (w : EstimatorWrapper E V) (ts : Nat) (image_path : String) :
    Process C G × EstimatorWrapper E V :=
  -- auto image = cv::imread(image_path);
  let image := x.imread image_path
  let p0 := p.emit (.imread image_path)
  -- estimator_->VisualMeas(timestamp_t{ts}, image);
  let r := x.Estimator_VisualMeas w.estimator_ p0.canvas (timestamp_t.mk ts) image
  let p1 : Process C G :=
    { (p0.emit (.Estimator_VisualMeas (timestamp_t.mk ts) image)) with
      canvas := r.2.2 }
  showDisplay x p1 { w with estimator_ := r.2.1 }

/-- The member `void VisualMeas2(ts, b)`. -/
def VisualMeas2 (x : Xivo E V C G S J) (p : Process C G)
    (w : EstimatorWrapper E V) (ts : Nat) (b : PyArray) :
    Process C G × EstimatorWrapper E V :=
  -- py::buffer_info info = b.request();
  let info := b.request
  -- cv::Mat image(640, 480, CV_32S, info.ptr);
  let image : CvMat := CvMat.mk 640 480 CvType.CV_32S info.ptr
  -- estimator_->VisualMeas(timestamp_t{ts}, image);
  let r := x.Estimator_VisualMeas w.estimator_ p.canvas (timestamp_t.mk ts) image
  let p1 : Process C G :=
    { (p.emit (.Estimator_VisualMeas (timestamp_t.mk ts) image)) with
      canvas := r.2.2 }
  showDisplay x p1 { w with estimator_ := r.2.1 }

/-- The member `gsb()`: `estimator_->gsb().matrix3x4()`. -/
def gsb (x : Xivo E V C G S J) (w : EstimatorWrapper E V) :
    Mat34 × EstimatorWrapper E V :=
  let r := x.gsb w.estimator_
  (x.matrix3x4 r.1, { w with estimator_ := r.2 })

/-- The member `gsc()`: `estimator_->gsc().matrix3x4()`. -/
def gsc (x : Xivo E V C G S J) (w : EstimatorWrapper E V) :
    Mat34 × EstimatorWrapper E V :=
  let r := x.gsc w.estimator_
  (x.matrix3x4 r.1, { w with estimator_ := r.2 })

/-- The member `gbc()`: `estimator_->gbc().matrix3x4()`. -/
def gbc (x : Xivo E V C G S J) (w : EstimatorWrapper E V) :
    Mat34 × EstimatorWrapper E V :=
  let r := x.gbc w.estimator_
  (x.matrix3x4 r.1, { w with estimator_ := r.2 })

/-- The member `Pstate()`: `estimator_->Pstate()`. -/
def Pstate (x : Xivo E V C G S J) (w : EstimatorWrapper E V) :
    MatX × EstimatorWrapper E V :=
  let r := x.Pstate w.estimator_
  (r.1, { w with estimator_ := r.2 })

/-- The member `Vsb()`: `estimator_->Vsb()`. -/
def Vsb (x : Xivo E V C G S J) (w : EstimatorWrapper E V) :
    Vec3 × EstimatorWrapper E V :=
  let r := x.Vsb w.estimator_
  (r.1, { w with estimator_ := r.2 })

/-- The member `bg()`: `estimator_->bg()`. -/
def bg (x : Xivo E V C G S J) (w : EstimatorWrapper E V) :
    Vec3 × EstimatorWrapper E V :=
  let r := x.bg w.estimator_
  (r.1, { w with estimator_ := r.2 })

/-- The member `ba()`: `estimator_->ba()`. -/
def ba (x : Xivo E V C G S J) (w : EstimatorWrapper E V) :
    Vec3 × EstimatorWrapper E V :=
  let r := x.ba w.estimator_
  (r.1, { w with estimator_ := r.2 })

/-- The member `Rg()`: `estimator_->Rg().matrix()`. -/
def Rg (x : Xivo E V C G S J) (w : EstimatorWrapper E V) :
    Mat3 × EstimatorWrapper E V :=
  let r := x.Rg w.estimator_
  (x.matrix r.1, { w with estimator_ := r.2 })

/-- The member `td()`: `estimator_->td()`. -/
def td (x : Xivo E V C G S J) (w : EstimatorWrapper E V) :
    number_t × EstimatorWrapper E V :=
  let r := x.td w.estimator_
  (r.1, { w with estimator_ := r.2 })

/-- The member `Ca()`: `estimator_->Ca()`. -/
def Ca (x : Xivo E V C G S J) (w : EstimatorWrapper E V) :
    Mat3 × EstimatorWrapper E V :=
  let r := x.Ca w.estimator_
  (r.1, { w with estimator_ := r.2 })

/-- The member `Cg()`: `estimator_->Cg()`. -/
def Cg (x : Xivo E V C G S J) (w : EstimatorWrapper E V) :
    Mat3 × EstimatorWrapper E V :=
  let r := x.Cg w.estimator_
  (r.1, { w with estimator_ := r.2 })

/-- The member `MeasurementUpdateInitialized()`. -/
def MeasurementUpdateInitialized (x : Xivo E V C G S J)
    (w : EstimatorWrapper E V) : Bool × EstimatorWrapper E V :=
  let r := x.MeasurementUpdateInitialized w.estimator_
  (r.1, { w with estimator_ := r.2 })

/-- The member `inn_Wsb()`: `estimator_->inn_Wsb()`. -/
def inn_Wsb (x : Xivo E V C G S J) (w : EstimatorWrapper E V) :
    Vec3 × EstimatorWrapper E V :=
  let r := x.inn_Wsb w.estimator_
  (r.1, { w with estimator_ := r.2 })

/-- The member `inn_Tsb()`: `estimator_->inn_Tsb()`. -/
def inn_Tsb (x : Xivo E V C G S J) (w : EstimatorWrapper E V) :
    Vec3 × EstimatorWrapper E V :=
  let r := x.inn_Tsb w.estimator_
  (r.1, { w with estimator_ := r.2 })

/-- The member `inn_Vsb()`: `estimator_->inn_Vsb()`. -/
def inn_Vsb (x : Xivo E V C G S J) (w : EstimatorWrapper E V) :
    Vec3 × EstimatorWrapper E V :=
  let r := x.inn_Vsb w.estimator_
  (r.1, { w with estimator_ := r.2 })

/-- The member `uint64_t now() const`: `estimator_->ts().count()`, converted
to the 64-bit unsigned return type. -/
def now (x : Xivo E V C G S J) (w : EstimatorWrapper E V) :
    Nat × EstimatorWrapper E V :=
  let r := x.ts w.estimator_
  (r.1.count % 2 ^ 64, { w with estimator_ := r.2 })

/-- The member `gauge_group()`: `estimator_->gauge_group()`. -/
def gauge_group (x : Xivo E V C G S J) (w : EstimatorWrapper E V) :
    Int × EstimatorWrapper E V :=
  let r := x.gauge_group w.estimator_
  (r.1, { w with estimator_ := r.2 })

/-- The member `InstateFeaturePositions(n_output)`. -/
def InstateFeaturePositions (x : Xivo E V C G S J) (w : EstimatorWrapper E V)
    (n_output : Int) : MatX × EstimatorWrapper E V :=
  let r := x.InstateFeaturePositions w.estimator_ n_output
  (r.1, { w with estimator_ := r.2 })

/-- The member `InstateFeatureCovs(n_output)`. -/
def InstateFeatureCovs (x : Xivo E V C G S J) (w : EstimatorWrapper E V)
    (n_output : Int) : MatX × EstimatorWrapper E V :=
  let r := x.InstateFeatureCovs w.estimator_ n_output
  (r.1, { w with estimator_ := r.2 })

/-- The member `InstateFeatureIDs(n_output)`. -/
def InstateFeatureIDs (x : Xivo E V C G S J) (w : EstimatorWrapper E V)
    (n_output : Int) : MatXi × EstimatorWrapper E V :=
  let r := x.InstateFeatureIDs w.estimator_ n_output
  (r.1, { w with estimator_ := r.2 })

/-- The member `num_instate_features()`. -/
def num_instate_features (x : Xivo E V C G S J) (w : EstimatorWrapper E V) :
    Int × EstimatorWrapper E V :=
  let r := x.num_instate_features w.estimator_
  (r.1, { w with estimator_ := r.2 })

/-- The member `void Visualize()`: `if (viewer_) viewer_->Refresh();`. -/
def Visualize (x : Xivo E V C G S J) (p : Process C G)
    (w : EstimatorWrapper E V) : Process C G × EstimatorWrapper E V :=
  match w.viewer_ with
  | some v => (p.emit .Viewer_Refresh, { w with viewer_ := some (x.Refresh v) })
  | none => (p, w)

end EstimatorWrapper

/-! ## The module `pyxivo` -/

/-- The member functions of `EstimatorWrapper` whose address is taken in the
module definition (`&EstimatorWrapper::gbc`, ...). -/
inductive Method where
  | InertialMeas
  | VisualMeas
  | VisualMeas2
  | gbc
  | gsb
  | gsc
  | Vsb
  | inn_Tsb
  | inn_Wsb
  | inn_Vsb
  | Pstate
  | bg
  | ba
  | Rg
  | td
  | Ca
  | Cg
  | InstateFeaturePositions
  | InstateFeatureCovs
  | InstateFeatureIDs
  | num_instate_features
  | now
  | Visualize
  | gauge_group
  | MeasurementUpdateInitialized
deriving DecidableEq, Repr

/-- The C++ identifier of a member function. -/
def Method.cppName : Method → String
  | .InertialMeas => "InertialMeas"
  | .VisualMeas => "VisualMeas"
  | .VisualMeas2 => "VisualMeas2"
  | .gbc => "gbc"
  | .gsb => "gsb"
  | .gsc => "gsc"
  | .Vsb => "Vsb"
  | .inn_Tsb => "inn_Tsb"
  | .inn_Wsb => "inn_Wsb"
  | .inn_Vsb => "inn_Vsb"
  | .Pstate => "Pstate"
  | .bg => "bg"
  | .ba => "ba"
  | .Rg => "Rg"
  | .td => "td"
  | .Ca => "Ca"
  | .Cg => "Cg"
  | .InstateFeaturePositions => "InstateFeaturePositions"
  | .InstateFeatureCovs => "InstateFeatureCovs"
  | .InstateFeatureIDs => "InstateFeatureIDs"
  | .num_instate_features => "num_instate_features"
  | .now => "now"
  | .Visualize => "Visualize"
  | .gauge_group => "gauge_group"
  | .MeasurementUpdateInitialized => "MeasurementUpdateInitialized"

/-- The `.def(name, &EstimatorWrapper::member)` lines of
`PYBIND11_MODULE(pyxivo, m)`, in source order.  (The `py::init` line binds
the constructor `EstimatorWrapper.new`.) -/
def pyxivo : List (String × Method) :=
  [ ("InertialMeas", .InertialMeas),
    ("VisualMeas", .VisualMeas),
    ("VisualMeas2", .VisualMeas2),
    ("gbc", .gbc),
    ("gsb", .gsb),
    ("gsc", .gsc),
    ("Vsb", .Vsb),
    ("inn_Tsb", .inn_Tsb),
    ("inn_Wsb", .inn_Wsb),
    ("inn_Vsb", .inn_Vsb),
    ("Pstate", .Pstate),
    ("bg", .bg),
    ("ba", .ba),
    ("Rg", .Rg),
    ("td", .td),
    ("Ca", .Ca),
    ("Cg", .Cg),
    ("InstateFeaturePositions", .InstateFeaturePositions),
    ("InstateFeatureCovs", .InstateFeatureCovs),
    ("InstateFeatureIDs", .InstateFeatureIDs),
    ("num_instate_features", .num_instate_features),
    ("now", .now),
    ("Visualize", .Visualize),
    ("gauge_group", .gauge_group),
    ("MeasurementUpdateInitialized", .MeasurementUpdateInitialized) ]

/-- The member functions reachable from Python. -/
def exposed : List Method := pyxivo.map Prod.snd

/-- The argument tuple of a Python call, after conversion to the C++
parameter types. -/
inductive PyArgs where
  | nil
  | inertial (ts : Nat) (wx wy wz ax ay az : F64)
  | visual (ts : Nat) (image_path : String)
  | visual2 (ts : Nat) (b : PyArray)
  | int (n_output : Int)
deriving DecidableEq, Repr

/-- The value a bound member function hands back to Python.  `none` is the
result of a `void` member. -/
inductive Value where
  | none
  | mat (m : MatX)
  | mati (m : MatXi)
  | vec3 (v : Vec3)
  | number (v : number_t)
  | bool (b : Bool)
  | int (i : Int)
  | uint64 (n : Nat)
deriving DecidableEq, Repr

/-- The shapes of parameter lists that occur among the bound members. -/
inductive ParamKind where
  | nil
  | inertial
  | visual
  | visual2
  | int
deriving DecidableEq, Repr

/-- The shape of an argument tuple. -/
def PyArgs.kind : PyArgs → ParamKind
  | .nil => .nil
  | .inertial _ _ _ _ _ _ _ => .inertial
  | .visual _ _ => .visual
  | .visual2 _ _ => .visual2
  | .int _ => .int

/-- The parameter list of a member function, from its C++ signature. -/
def Method.params : Method → ParamKind
  | .InertialMeas => .inertial
  | .VisualMeas => .visual
  | .VisualMeas2 => .visual2
  | .InstateFeaturePositions => .int
  | .InstateFeatureCovs => .int
  | .InstateFeatureIDs => .int
  | _ => .nil

section Invoke

variable {E V C G S J : Type}

/-- Lift a query member (one that does not touch the process state) to the
common shape of a bound call. -/
def liftQuery {α : Type} (f : α → Value) (p : Process C G)
    (r : α × EstimatorWrapper E V) :
    Option (Value × Process C G × EstimatorWrapper E V) :=
  some (f r.1, p, r.2)

/-- Lift a `void` member to the common shape of a bound call. -/
def liftVoid (r : Process C G × EstimatorWrapper E V) :
    Option (Value × Process C G × EstimatorWrapper E V) :=
  some (Value.none, r.1, r.2)

/-- Call a member function with an argument tuple.  The result is `none` when
the tuple does not fit the member's parameter list (pybind11 then raises
`TypeError` before any C++ code of the wrapper runs). -/
def Method.invoke (x : Xivo E V C G S J) (m : Method) (a : PyArgs)
    (p : Process C G) (w : EstimatorWrapper E V) :
    Option (Value × Process C G × EstimatorWrapper E V) :=
  match m, a with
  | .InertialMeas, .inertial ts wx wy wz ax ay az =>
      liftVoid (EstimatorWrapper.InertialMeas x p w ts wx wy wz ax ay az)
  | .VisualMeas, .visual ts path => liftVoid (EstimatorWrapper.VisualMeas x p w ts path)
  | .VisualMeas2, .visual2 ts b => liftVoid (EstimatorWrapper.VisualMeas2 x p w ts b)
  | .gbc, .nil => liftQuery Value.mat p (EstimatorWrapper.gbc x w)
  | .gsb, .nil => liftQuery Value.mat p (EstimatorWrapper.gsb x w)
  | .gsc, .nil => liftQuery Value.mat p (EstimatorWrapper.gsc x w)
  | .Vsb, .nil => liftQuery Value.vec3 p (EstimatorWrapper.Vsb x w)
  | .inn_Tsb, .nil => liftQuery Value.vec3 p (EstimatorWrapper.inn_Tsb x w)
  | .inn_Wsb, .nil => liftQuery Value.vec3 p (EstimatorWrapper.inn_Wsb x w)
  | .inn_Vsb, .nil => liftQuery Value.vec3 p (EstimatorWrapper.inn_Vsb x w)
  | .Pstate, .nil => liftQuery Value.mat p (EstimatorWrapper.Pstate x w)
  | .bg, .nil => liftQuery Value.vec3 p (EstimatorWrapper.bg x w)
  | .ba, .nil => liftQuery Value.vec3 p (EstimatorWrapper.ba x w)
  | .Rg, .nil => liftQuery Value.mat p (EstimatorWrapper.Rg x w)
  | .td, .nil => liftQuery Value.number p (EstimatorWrapper.td x w)
  | .Ca, .nil => liftQuery Value.mat p (EstimatorWrapper.Ca x w)
  | .Cg, .nil => liftQuery Value.mat p (EstimatorWrapper.Cg x w)
  | .InstateFeaturePositions, .int n =>
      liftQuery Value.mat p (EstimatorWrapper.InstateFeaturePositions x w n)
  | .InstateFeatureCovs, .int n =>
      liftQuery Value.mat p (EstimatorWrapper.InstateFeatureCovs x w n)
  | .InstateFeatureIDs, .int n =>
      liftQuery Value.mati p (EstimatorWrapper.InstateFeatureIDs x w n)
  | .num_instate_features, .nil =>
      liftQuery Value.int p (EstimatorWrapper.num_instate_features x w)
  | .now, .nil => liftQuery Value.uint64 p (EstimatorWrapper.now x w)
  | .Visualize, .nil => liftVoid (EstimatorWrapper.Visualize x p w)
  | .gauge_group, .nil => liftQuery Value.int p (EstimatorWrapper.gauge_group x w)
  | .MeasurementUpdateInitialized, .nil =>
      liftQuery Value.bool p (EstimatorWrapper.MeasurementUpdateInitialized x w)
  | _, _ => Option.none

/-- The Python call `obj.name(args)` on an `Estimator` object: look the name
up in the module definition and call the member bound to it.  `none` when the
name is not bound or the arguments do not fit. -/
def pycall (x : Xivo E V C G S J) (name : String) (a : PyArgs)
    (p : Process C G) (w : EstimatorWrapper E V) :
    Option (Value × Process C G × EstimatorWrapper E V) :=
  match pyxivo.lookup name with
  | some m => m.invoke x a p w
  | Option.none => Option.none

end Invoke

/-! ## Sequences of calls -/

section Sequences

variable {E V C G S J : Type}

/-- A call of one of the three intake members or of `Visualize`, with its
arguments. -/
inductive Cmd where
  | InertialMeas (ts : Nat) (wx wy wz ax ay az : F64)
  | VisualMeas (ts : Nat) (image_path : String)
  | VisualMeas2 (ts : Nat) (b : PyArray)
  | Visualize
deriving DecidableEq, Repr

/-- Run one command on a wrapper. -/
def Cmd.run (x : Xivo E V C G S J) (s : Process C G × EstimatorWrapper E V) :
    Cmd → Process C G × EstimatorWrapper E V
  | .InertialMeas ts wx wy wz ax ay az =>
      EstimatorWrapper.InertialMeas x s.1 s.2 ts wx wy wz ax ay az
  | .VisualMeas ts path => EstimatorWrapper.VisualMeas x s.1 s.2 ts path
  | .VisualMeas2 ts b => EstimatorWrapper.VisualMeas2 x s.1 s.2 ts b
  | .Visualize => EstimatorWrapper.Visualize x s.1 s.2

/-- Run a sequence of commands on a wrapper, first to last. -/
def runCmds (x : Xivo E V C G S J) (s : Process C G × EstimatorWrapper E V)
    (cmds : List Cmd) : Process C G × EstimatorWrapper E V :=
  cmds.foldl (Cmd.run x) s

/-- A Python session: the process state and the `Estimator` objects created
so far, in creation order. -/
structure Session (E V C G : Type) where
  proc : Process C G
  objs : List (EstimatorWrapper E V)

/-- One step of a Python session: create an `Estimator`, or call a bound
name on the object with the given index. -/
inductive Op where
  | construct (cfg_path viewer_cfg_path name : String)
  | call (obj : Nat) (name : String) (args : PyArgs)
deriving DecidableEq, Repr

/-- Is the step a construction? -/
def Op.isConstruct : Op → Bool
  | .construct _ _ _ => true
  | .call _ _ _ => false

/-- Perform one step.  A call on a missing object, of an unbound name or
with unfitting arguments raises in Python and leaves the session as it is. -/
def Session.step (x : Xivo E V C G S J) (s : Session E V C G) :
    Op → Session E V C G
  | .construct cfg_path viewer_cfg_path name =>
      let r := EstimatorWrapper.new x s.proc cfg_path viewer_cfg_path name
      { proc := r.1, objs := s.objs ++ [r.2] }
  | .call i name args =>
      match s.objs[i]? with
      | some w =>
        match pycall x name args s.proc w with
        | some r => { proc := r.2.1, objs := s.objs.set i r.2.2 }
        | Option.none => s
      | Option.none => s

/-- Perform a sequence of steps, first to last. -/
def Session.run (x : Xivo E V C G S J) (s : Session E V C G) (ops : List Op) :
    Session E V C G :=
  ops.foldl (Session.step x) s

/-- The session of a freshly started process. -/
def Session.init (canvas : C) : Session E V C G :=
  { proc := Process.init canvas, objs := [] }

/-- How many times the logging initialisation has been called. -/
def Process.glogInits (p : Process C G) : Nat :=
  (p.trace.filter Event.isInitGoogleLogging).length

/-- The calls on the viewer made so far. -/
def Process.viewerCalls (p : Process C G) : List (Event G) :=
  p.trace.filter Event.isViewer

end Sequences

/-! ## Contracts of the collaborators -/

section Contracts

variable {E V C G S J : Type}

/-- A query member of the estimator is pure when it leaves the estimator as
it found it. -/
def PureQuery {α : Type} (q : E → α × E) : Prop := ∀ e, (q e).2 = e

/-- The estimator query of the same name as a wrapper accessor is pure
(`now` reads `ts`); vacuous for the members that are not accessors. -/
def Xivo.queryPure (x : Xivo E V C G S J) : Method → Prop
  | .gbc => PureQuery x.gbc
  | .gsb => PureQuery x.gsb
  | .gsc => PureQuery x.gsc
  | .Vsb => PureQuery x.Vsb
  | .inn_Tsb => PureQuery x.inn_Tsb
  | .inn_Wsb => PureQuery x.inn_Wsb
  | .inn_Vsb => PureQuery x.inn_Vsb
  | .Pstate => PureQuery x.Pstate
  | .bg => PureQuery x.bg
  | .ba => PureQuery x.ba
  | .Rg => PureQuery x.Rg
  | .td => PureQuery x.td
  | .Ca => PureQuery x.Ca
  | .Cg => PureQuery x.Cg
  | .InstateFeaturePositions => ∀ n, PureQuery (fun e => x.InstateFeaturePositions e n)
  | .InstateFeatureCovs => ∀ n, PureQuery (fun e => x.InstateFeatureCovs e n)
  | .InstateFeatureIDs => ∀ n, PureQuery (fun e => x.InstateFeatureIDs e n)
  | .num_instate_features => PureQuery x.num_instate_features
  | .now => PureQuery x.ts
  | .gauge_group => PureQuery x.gauge_group
  | .MeasurementUpdateInitialized => PureQuery x.MeasurementUpdateInitialized
  | .InertialMeas => True
  | .VisualMeas => True
  | .VisualMeas2 => True
  | .Visualize => True

/-- The query surface of the estimator is read-only: every query is pure. -/
def Xivo.QueriesPure (x : Xivo E V C G S J) : Prop := ∀ m, x.queryPure m

/-- Reading the display of the canvas leaves the canvas as it is. -/
def Xivo.DisplayPure (x : Xivo E V C G S J) : Prop := ∀ c, (x.display c).2 = c

/-- The estimator drops an inertial sample that is older than its current
time: the intake answers `OutOfOrderSample` and changes neither the
estimator nor the canvas. -/
def Xivo.DropsOutOfOrder (x : Xivo E V C G S J) : Prop :=
  ∀ e c t gyro accel, t.count < (x.ts e).1.count →
    x.Estimator_InertialMeas e c t gyro accel = (Status.OutOfOrderSample, e, c)

/-- The 21 query accessors of the wrapper. -/
def accessors : List Method :=
  [ .gsb, .gsc, .gbc, .Pstate, .Vsb, .bg, .ba, .Rg, .td, .Ca, .Cg,
    .MeasurementUpdateInitialized, .inn_Wsb, .inn_Tsb, .inn_Vsb, .now,
    .gauge_group, .InstateFeaturePositions, .InstateFeatureCovs,
    .InstateFeatureIDs, .num_instate_features ]

/-- The three members that hand a sample to the estimator. -/
def intakes : List Method := [ .InertialMeas, .VisualMeas, .VisualMeas2 ]

/-- A member can change the estimator: for some library whose query surface
is read-only, some state and some arguments, the estimator after the call
differs from the estimator before. -/
def CanChangeEstimator (E V C G S J : Type) (m : Method) : Prop :=
  ∃ (x : Xivo E V C G S J), x.QueriesPure ∧
    ∃ (a : PyArgs) (p : Process C G) (w : EstimatorWrapper E V)
      (r : Value × Process C G × EstimatorWrapper E V),
      m.invoke x a p w = some r ∧ r.2.2.estimator_ ≠ w.estimator_

/-- Two runs are in step: same estimator, same canvas, and the first run has
no viewer and has made no further viewer call. -/
def InStep (calls : List (Event G)) (a b : Process C G × EstimatorWrapper E V) : Prop :=
  a.2.estimator_ = b.2.estimator_ ∧ a.1.canvas = b.1.canvas ∧
  a.2.viewer_ = none ∧ a.1.viewerCalls = calls

end Contracts

/-! ## The estimator behind the binding, as the spec describes it -/

/-- The number of state dimensions one instate landmark occupies. -/
def landmarkDim : Nat := 3

/-- Modelled from the spec: the State & Covariance Store of the estimator,
whose code is outside the embedded source.  It holds the covariance matrix,
the identifiers of the instate landmarks in state order, the dimension of the
part of the state that is not landmarks, and the configured maximum number of
instate landmarks.  The landmark block of the state is a dense sequence of
3-dimensional blocks behind the base part. -/
structure Store where
  P : MatX
  ids : List Nat
  base : Nat
  capacity : Nat
deriving DecidableEq, Repr

/-- The dimension of the covariance matrix. -/
def Store.dim (s : Store) : Nat := s.P.length

/-- The store is well formed: the covariance is square, its dimension is the
base dimension plus 3 per instate landmark, and no identifier occurs twice. -/
def Store.WF (s : Store) : Prop :=
  s.P.length = s.base + landmarkDim * s.ids.length ∧
  (∀ row ∈ s.P, row.length = s.P.length) ∧ s.ids.Nodup

/-- Well-formedness of a store can be checked. -/
instance (s : Store) : Decidable s.WF := by
  unfold Store.WF
  infer_instance

/-- The entry `(i, j)` of a matrix, if there is one. -/
def entry (P : MatX) (i j : Nat) : Option F64 :=
  (P[i]?).bind (fun row => row[j]?)

/-- Remove the `k` elements starting at position `a`. -/
def removeRange {α : Type} (a k : Nat) (l : List α) : List α :=
  l.take a ++ l.drop (a + k)

/-- The index in the larger matrix of the entry that lands at index `i` once
the `k` indices from `a` on are removed. -/
def skipRange (a k i : Nat) : Nat := if i < a then i else i + k

/-- Modelled from the spec: promotion of a landmark into the state (the
resize operation of the State & Covariance Store, outside the embedded
source).  The covariance is extended by 3 rows and 3 columns behind the
existing block: `cross` gives, for each existing row, its 3 new entries, and
`rows` gives the 3 new rows.  Promotion needs a free slot (fewer instate
landmarks than the configured maximum) and an identifier that is not
instate. -/
def Store.promote (s : Store) (id : Nat) (cross rows : MatX) : Option Store :=
  if id ∉ s.ids ∧ s.ids.length < s.capacity ∧
      cross.length = s.P.length ∧ (∀ c ∈ cross, c.length = landmarkDim) ∧
      rows.length = landmarkDim ∧
      (∀ r ∈ rows, r.length = s.P.length + landmarkDim) then
    some { s with P := List.zipWith (fun row c => row ++ c) s.P cross ++ rows,
                  ids := s.ids ++ [id] }
  else none

/-- Modelled from the spec: eviction of an instate landmark (the shrinking
resize operation of the State & Covariance Store, outside the embedded
source).  The 3 rows and 3 columns of the landmark are removed and the rest
of the covariance is kept. -/
def Store.evict (s : Store) (id : Nat) : Option Store :=
  if id ∈ s.ids then
    let a := s.base + landmarkDim * s.ids.indexOf id
    some { s with P := (removeRange a landmarkDim s.P).map (removeRange a landmarkDim),
                  ids := s.ids.erase id }
  else none

/-- Modelled from the spec: the part of the estimator (outside the embedded
source) that the binding can observe.  It keeps the time of the last accepted
inertial sample, that sample, the number of frames taken in, and the State &
Covariance Store. -/
structure SpecEstimator where
  now : timestamp_t
  gyro : Vec3
  accel : Vec3
  frames : Nat
  store : Store
deriving DecidableEq, Repr

/-- Modelled from the spec: promotion of a landmark, seen from the estimator
(outside the embedded source): the store is resized, nothing else changes. -/
def SpecEstimator.promote (e : SpecEstimator) (id : Nat) (cross rows : MatX) :
    Option SpecEstimator :=
  (e.store.promote id cross rows).map (fun s => { e with store := s })

/-- Modelled from the spec: eviction of a landmark, seen from the estimator
(outside the embedded source): the store is resized, nothing else changes. -/
def SpecEstimator.evict (e : SpecEstimator) (id : Nat) : Option SpecEstimator :=
  (e.store.evict id).map (fun s => { e with store := s })

/-- What the viewer of the reference instance remembers: the poses and
images it was given and how often it was refreshed. -/
structure SpecViewer where
  poses : List MatX
  images : List CvMat
  refreshes : Nat
deriving DecidableEq, Repr

/-- Modelled from the spec: the inertial intake of the estimator (outside the
embedded source).  A sample with a timestamp earlier than the last processed
one yields `OutOfOrderSample` and is dropped; any other sample is accepted
and becomes the last processed one. -/
def SpecEstimator.InertialMeas (e : SpecEstimator) (c : CvMat) (t : timestamp_t)
    (gyro accel : Vec3) : Status × SpecEstimator × CvMat :=
  if t.count < e.now.count then (Status.OutOfOrderSample, e, c)
  else (Status.Ok, { e with now := t, gyro := gyro, accel := accel }, c)

/-- Modelled from the spec: the visual intake of the estimator (outside the
embedded source), reduced to what the binding observes: the frame is counted
and becomes the display of the canvas. -/
def SpecEstimator.VisualMeas (e : SpecEstimator) (_c : CvMat) (_t : timestamp_t)
    (image : CvMat) : Status × SpecEstimator × CvMat :=
  (Status.Ok, { e with frames := e.frames + 1 }, image)

/-- A vector as a one-row matrix. -/
def Vec3.toRow (v : Vec3) : List F64 := [v.x, v.y, v.z]

/-- Modelled from the spec: a reference instance of the library behind the
binding (estimator, viewer and canvas are outside the embedded source).  The
query surface is read-only, as the spec requires: every query returns the
estimator unchanged.  `Pstate` is the covariance of the store and
`num_instate_features` the number of instate landmarks. -/
def specXivo : Xivo SpecEstimator SpecViewer CvMat MatX MatX String where
  LoadJson := fun path => path
  CreateSystem := fun _ =>
    { now := ⟨0⟩, gyro := ⟨⟨0⟩, ⟨0⟩, ⟨0⟩⟩, accel := ⟨⟨0⟩, ⟨0⟩, ⟨0⟩⟩, frames := 0,
      store := { P := [], ids := [], base := 0, capacity := 2 } }
  Viewer_new := fun _ _ => { poses := [], images := [], refreshes := 0 }
  imread := fun path => CvMat.mk 1 path.length CvType.CV_8UC3 (path.toList.map (fun ch => (ch.toNat : Int)))
  Estimator_InertialMeas := SpecEstimator.InertialMeas
  Estimator_VisualMeas := SpecEstimator.VisualMeas
  gsb := fun e => ([e.gyro.toRow], e)
  gsc := fun e => ([e.accel.toRow], e)
  gbc := fun e => ([], e)
  Pstate := fun e => (e.store.P, e)
  Vsb := fun e => (e.gyro, e)
  bg := fun e => (e.gyro, e)
  ba := fun e => (e.accel, e)
  Rg := fun e => ([], e)
  td := fun e => (⟨0⟩, e)
  Ca := fun e => ([], e)
  Cg := fun e => ([], e)
  MeasurementUpdateInitialized := fun e => (decide (0 < e.frames), e)
  inn_Wsb := fun e => (e.gyro, e)
  inn_Tsb := fun e => (e.accel, e)
  inn_Vsb := fun e => (e.gyro, e)
  ts := fun e => (e.now, e)
  gauge_group := fun e => (0, e)
  InstateFeaturePositions := fun e _ => ([], e)
  InstateFeatureCovs := fun e _ => ([], e)
  InstateFeatureIDs := fun e _ => ([e.store.ids.map (fun i => (i : Int))], e)
  num_instate_features := fun e => ((e.store.ids.length : Int), e)
  matrix3x4 := fun g => g
  matrix := fun r => r
  display := fun c => (c, c)
  Update_gsb := fun v g => { v with poses := v.poses ++ [g] }
  Update_gsc := fun v g => { v with poses := v.poses ++ [g] }
  Update := fun v d => { v with images := v.images ++ [d] }
  Refresh := fun v => { v with refreshes := v.refreshes + 1 }

/-- The process state of the reference instance before anything is called:
an empty display. -/
def specProcess : Process CvMat MatX :=
  Process.init (CvMat.mk 0 0 CvType.CV_8UC3 [])

/-- A wrapper over the reference instance without viewer, as constructed
from an empty viewer configuration path. -/
def specWrapper : EstimatorWrapper SpecEstimator SpecViewer :=
  (EstimatorWrapper.new specXivo specProcess "cfg.json" "" "demo").2

/-- A wrapper over the reference instance with a viewer. -/
def specWrapperV : EstimatorWrapper SpecEstimator SpecViewer :=
  (EstimatorWrapper.new specXivo specProcess "cfg.json" "viewer.json" "demo").2

/-- A double with bit pattern `n`, for concrete inputs. -/
def f64 (n : Nat) : F64 := ⟨n⟩

/-- The reference wrapper after one accepted inertial sample at time 10. -/
def specWrapperAt10 : EstimatorWrapper SpecEstimator SpecViewer :=
  (EstimatorWrapper.InertialMeas specXivo specProcess specWrapper 10
    (f64 1) (f64 2) (f64 3) (f64 4) (f64 5) (f64 6)).2

/-- A well-formed store with a 2x2 base block and no landmark. -/
def store2 : Store :=
  { P := [[f64 1, f64 2], [f64 2, f64 5]], ids := [], base := 2, capacity := 2 }

/-- The new entries of the existing rows when a landmark is promoted into
`store2`. -/
def cross2 : MatX := [[f64 7, f64 8, f64 9], [f64 10, f64 11, f64 12]]

/-- The three new rows when a landmark is promoted into `store2`. -/
def rows2 : MatX :=
  [[f64 7, f64 10, f64 20, f64 21, f64 22],
   [f64 8, f64 11, f64 21, f64 30, f64 31],
   [f64 9, f64 12, f64 22, f64 31, f64 40]]

/-- The reference wrapper with `store2` as the store of its estimator. -/
def specWrapper2 : EstimatorWrapper SpecEstimator SpecViewer :=
  { specWrapper with estimator_ := { specWrapper.estimator_ with store := store2 } }

/-- The estimator of `specWrapper2` after landmark 7 is promoted with
`cross2` and `rows2`. -/
def specEstimator2p : SpecEstimator :=
  { specWrapper2.estimator_ with
    store := { store2 with
      P := [[f64 1, f64 2, f64 7, f64 8, f64 9],
            [f64 2, f64 5, f64 10, f64 11, f64 12],
            [f64 7, f64 10, f64 20, f64 21, f64 22],
            [f64 8, f64 11, f64 21, f64 30, f64 31],
            [f64 9, f64 12, f64 22, f64 31, f64 40]],
      ids := [7] } }

/-! ## Theorems -/

section Theorems

variable {E V C G S J : Type}

/-- A call with fitting arguments always returns. -/
theorem Method.invoke_isSome (x : Xivo E V C G S J) (m : Method) (a : PyArgs)
    (p : Process C G) (w : EstimatorWrapper E V) (hfit : m.params = a.kind) :
    (m.invoke x a p w).isSome = true := by
  cases m <;> cases a <;> simp_all [Method.params, PyArgs.kind, Method.invoke, liftQuery, liftVoid]

/-- The reference instance has a read-only query surface. -/
theorem specXivo_queriesPure : specXivo.QueriesPure := by
  intro m
  cases m <;> simp [Xivo.queryPure, PureQuery, specXivo]

/-- The reference instance drops out-of-order inertial samples. -/
theorem specXivo_dropsOutOfOrder : specXivo.DropsOutOfOrder := by
  intro e c t gyro accel h
  simp only [specXivo] at h
  simp [specXivo, SpecEstimator.InertialMeas, h]

/-- C1: every query accessor of the wrapper is read-only.  For each of the 21
accessors, called with arguments that fit its parameter list, and assuming
the estimator query of the same name is pure: the call returns, and leaves
the process state (static flag, canvas, trace) and the wrapper (estimator,
viewer, name and counters) exactly as they were; and the same call made
again on the state the first call left returns the same value. -/
theorem accessor_read_only (x : Xivo E V C G S J) (m : Method)
    (hm : m ∈ accessors) (a : PyArgs) (hfit : m.params = a.kind)
    (hpure : x.queryPure m) (p : Process C G) (w : EstimatorWrapper E V) :
    Option.map Prod.snd (m.invoke x a p w) = some (p, w) ∧
    (m.invoke x a p w).bind (fun r => Option.map Prod.fst (m.invoke x a r.2.1 r.2.2)) =
      Option.map Prod.fst (m.invoke x a p w) ∧
    (m.invoke x a p w).isSome = true := by
  have key : ∃ v, m.invoke x a p w = some (v, p, w) := by
    cases m <;> cases a <;>
      simp_all [accessors, Method.params, PyArgs.kind, Method.invoke, liftQuery,
        Xivo.queryPure, PureQuery, EstimatorWrapper.gsb, EstimatorWrapper.gsc,
        EstimatorWrapper.gbc, EstimatorWrapper.Pstate, EstimatorWrapper.Vsb,
        EstimatorWrapper.bg, EstimatorWrapper.ba, EstimatorWrapper.Rg,
        EstimatorWrapper.td, EstimatorWrapper.Ca, EstimatorWrapper.Cg,
        EstimatorWrapper.MeasurementUpdateInitialized, EstimatorWrapper.inn_Wsb,
        EstimatorWrapper.inn_Tsb, EstimatorWrapper.inn_Vsb, EstimatorWrapper.now,
        EstimatorWrapper.gauge_group, EstimatorWrapper.InstateFeaturePositions,
        EstimatorWrapper.InstateFeatureCovs, EstimatorWrapper.InstateFeatureIDs,
        EstimatorWrapper.num_instate_features]
  obtain ⟨v, hv⟩ := key
  simp [hv]

/-- C1 at a concrete input: `gsb` on the reference wrapper. -/
theorem accessor_read_only_witness :
    Option.map Prod.snd (Method.invoke specXivo Method.gsb PyArgs.nil specProcess specWrapper)
      = some (specProcess, specWrapper) :=
  (accessor_read_only specXivo Method.gsb (by decide) PyArgs.nil rfl
    (specXivo_queriesPure Method.gsb) specProcess specWrapper).1

/-- C4: `InertialMeas` hands the sample to the estimator's inertial intake
exactly once and unchanged.  The calls of the inertial intake made during the
wrapper call are exactly one, with timestamp `ts`, first vector
`(wx, wy, wz)` and second vector `(ax, ay, az)`; it is the first outgoing
call; and the estimator and canvas the wrapper goes on with are the ones that
call produced (followed, when a viewer is present, by the two pose queries
for the viewer). -/
theorem InertialMeas_forwards_sample (x : Xivo E V C G S J) (p : Process C G)
    (w : EstimatorWrapper E V) (ts : Nat) (wx wy wz ax ay az : F64) :
    let r := EstimatorWrapper.InertialMeas x p w ts wx wy wz ax ay az
    let out := x.Estimator_InertialMeas w.estimator_ p.canvas (timestamp_t.mk ts)
      (Vec3.mk wx wy wz) (Vec3.mk ax ay az)
    (∃ rest, r.1.trace = p.trace ++
        Event.Estimator_InertialMeas (timestamp_t.mk ts) (Vec3.mk wx wy wz)
          (Vec3.mk ax ay az) :: rest ∧
        rest.filter Event.isInertialIntake = []) ∧
    (r.1.trace.drop p.trace.length).filter Event.isInertialIntake =
      [Event.Estimator_InertialMeas (timestamp_t.mk ts) (Vec3.mk wx wy wz)
        (Vec3.mk ax ay az)] ∧
    r.1.canvas = out.2.2 ∧
    r.2.estimator_ =
      (match w.viewer_ with
       | some _ => (x.gsc (x.gsb out.2.1).2).2
       | none => out.2.1) := by
  intro r out
  cases hv : w.viewer_ with
  | none =>
    simp [r, out, EstimatorWrapper.InertialMeas, hv, Process.emit, Event.isInertialIntake]
  | some v =>
    simp [r, out, EstimatorWrapper.InertialMeas, hv, Process.emit, Event.isInertialIntake]

/-- C9: `VisualMeas2` ignores the shape of its array.  Whatever the array,
the only visual intake call made is on an image header of 640 rows, 480
columns and 32-bit integer elements laid over the array's flattened buffer;
that image is the same for two arrays with the same buffer; its element
`(r, c)` is element `r * 480 + c` of the buffer; and all 640 * 480 element
reads stay inside the buffer exactly when the buffer holds at least 307200
elements. -/
theorem VisualMeas2_fixed_shape (x : Xivo E V C G S J) (p : Process C G)
    (w : EstimatorWrapper E V) (ts : Nat) (b : PyArray) :
    ∃ image : CvMat,
      ((EstimatorWrapper.VisualMeas2 x p w ts b).1.trace.drop p.trace.length).filter
          Event.isVisualIntake = [Event.Estimator_VisualMeas (timestamp_t.mk ts) image] ∧
      (EstimatorWrapper.VisualMeas2 x p w ts b).2.estimator_ =
        (x.Estimator_VisualMeas w.estimator_ p.canvas (timestamp_t.mk ts) image).2.1 ∧
      image = CvMat.mk 640 480 CvType.CV_32S b.buffer ∧
      image.rows = 640 ∧ image.cols = 480 ∧ image.type = CvType.CV_32S ∧
      (∀ r c, r < 640 → c < 480 → image.read r c = b.buffer[r * 480 + c]?) ∧
      ((∀ r c, r < 640 → c < 480 → (image.read r c).isSome = true) ↔
        640 * 480 ≤ b.buffer.length) ∧
      640 * 480 = 307200 := by
  refine ⟨CvMat.mk 640 480 CvType.CV_32S b.buffer, ?_, ?_, rfl, rfl, rfl, rfl, ?_, ?_, by norm_num⟩
  · cases hv : w.viewer_ with
    | none =>
      simp [EstimatorWrapper.VisualMeas2, EstimatorWrapper.showDisplay, hv, Process.emit,
        Event.isVisualIntake, PyArray.request]
    | some v =>
      by_cases hd : (x.display (x.Estimator_VisualMeas w.estimator_ p.canvas
          (timestamp_t.mk ts) (CvMat.mk 640 480 CvType.CV_32S b.buffer)).2.2).1.empty = true
      · simp [EstimatorWrapper.VisualMeas2, EstimatorWrapper.showDisplay, hv, Process.emit,
          Event.isVisualIntake, PyArray.request, hd]
      · simp [EstimatorWrapper.VisualMeas2, EstimatorWrapper.showDisplay, hv, Process.emit,
          Event.isVisualIntake, PyArray.request, hd]
  · cases hv : w.viewer_ with
    | none =>
      simp [EstimatorWrapper.VisualMeas2, EstimatorWrapper.showDisplay, hv, PyArray.request]
    | some v =>
      by_cases hd : (x.display (x.Estimator_VisualMeas w.estimator_ p.canvas
          (timestamp_t.mk ts) (CvMat.mk 640 480 CvType.CV_32S b.buffer)).2.2).1.empty = true
      · simp [EstimatorWrapper.VisualMeas2, EstimatorWrapper.showDisplay, hv, Process.emit,
          PyArray.request, hd]
      · simp [EstimatorWrapper.VisualMeas2, EstimatorWrapper.showDisplay, hv, Process.emit,
          PyArray.request, hd]
  · intro r c _ _
    rfl
  · constructor
    · intro h
      have h1 := h 639 479 (by norm_num) (by norm_num)
      simp only [CvMat.read] at h1
      rcases hlen : b.buffer[639 * 480 + 479]? with _ | v
      · rw [hlen] at h1
        simp at h1
      · have := (List.getElem?_eq_some.mp hlen).1
        omega
    · intro h r c hr hc
      simp only [CvMat.read]
      have hlt : r * 480 + c < b.buffer.length := by
        have : r * 480 ≤ 639 * 480 := Nat.mul_le_mul_right 480 (by omega)
        omega
      simp [List.getElem?_eq_getElem hlt]

/-- C6: no exported name is cross-wired.  Every `.def` line binds a name to
the wrapper member of that same name, no name is bound twice, all 21
accessors are bound, and calling a bound accessor name from Python returns
exactly the value of the estimator query of that name: `gsb`/`gsc`/`gbc` as
the 3x4 matrix of the transform, `Rg` as the 3x3 matrix of the rotation,
`now` as the tick count of `ts` (in the 64-bit unsigned return type, which is
the tick count itself whenever it fits), in particular `inn_Tsb`, `inn_Wsb`
and `inn_Vsb` as the estimator's innovation vectors of those names. -/
theorem bindings_not_cross_wired (x : Xivo E V C G S J) (p : Process C G)
    (w : EstimatorWrapper E V) (n : Int) :
    (∀ b ∈ pyxivo, b.2.cppName = b.1) ∧
    (pyxivo.map Prod.fst).Nodup ∧
    (∀ m ∈ accessors, m ∈ exposed) ∧
    Option.map Prod.fst (pycall x "gsb" PyArgs.nil p w)
      = some (Value.mat (x.matrix3x4 (x.gsb w.estimator_).1)) ∧
    Option.map Prod.fst (pycall x "gsc" PyArgs.nil p w)
      = some (Value.mat (x.matrix3x4 (x.gsc w.estimator_).1)) ∧
    Option.map Prod.fst (pycall x "gbc" PyArgs.nil p w)
      = some (Value.mat (x.matrix3x4 (x.gbc w.estimator_).1)) ∧
    Option.map Prod.fst (pycall x "Pstate" PyArgs.nil p w)
      = some (Value.mat (x.Pstate w.estimator_).1) ∧
    Option.map Prod.fst (pycall x "Vsb" PyArgs.nil p w)
      = some (Value.vec3 (x.Vsb w.estimator_).1) ∧
    Option.map Prod.fst (pycall x "bg" PyArgs.nil p w)
      = some (Value.vec3 (x.bg w.estimator_).1) ∧
    Option.map Prod.fst (pycall x "ba" PyArgs.nil p w)
      = some (Value.vec3 (x.ba w.estimator_).1) ∧
    Option.map Prod.fst (pycall x "Rg" PyArgs.nil p w)
      = some (Value.mat (x.matrix (x.Rg w.estimator_).1)) ∧
    Option.map Prod.fst (pycall x "td" PyArgs.nil p w)
      = some (Value.number (x.td w.estimator_).1) ∧
    Option.map Prod.fst (pycall x "Ca" PyArgs.nil p w)
      = some (Value.mat (x.Ca w.estimator_).1) ∧
    Option.map Prod.fst (pycall x "Cg" PyArgs.nil p w)
      = some (Value.mat (x.Cg w.estimator_).1) ∧
    Option.map Prod.fst (pycall x "MeasurementUpdateInitialized" PyArgs.nil p w)
      = some (Value.bool (x.MeasurementUpdateInitialized w.estimator_).1) ∧
    Option.map Prod.fst (pycall x "inn_Wsb" PyArgs.nil p w)
      = some (Value.vec3 (x.inn_Wsb w.estimator_).1) ∧
    Option.map Prod.fst (pycall x "inn_Tsb" PyArgs.nil p w)
      = some (Value.vec3 (x.inn_Tsb w.estimator_).1) ∧
    Option.map Prod.fst (pycall x "inn_Vsb" PyArgs.nil p w)
      = some (Value.vec3 (x.inn_Vsb w.estimator_).1) ∧
    Option.map Prod.fst (pycall x "now" PyArgs.nil p w)
      = some (Value.uint64 ((x.ts w.estimator_).1.count % 2 ^ 64)) ∧
    ((x.ts w.estimator_).1.count < 2 ^ 64 →
      Option.map Prod.fst (pycall x "now" PyArgs.nil p w)
        = some (Value.uint64 (x.ts w.estimator_).1.count)) ∧
    Option.map Prod.fst (pycall x "gauge_group" PyArgs.nil p w)
      = some (Value.int (x.gauge_group w.estimator_).1) ∧
    Option.map Prod.fst (pycall x "InstateFeaturePositions" (PyArgs.int n) p w)
      = some (Value.mat (x.InstateFeaturePositions w.estimator_ n).1) ∧
    Option.map Prod.fst (pycall x "InstateFeatureCovs" (PyArgs.int n) p w)
      = some (Value.mat (x.InstateFeatureCovs w.estimator_ n).1) ∧
    Option.map Prod.fst (pycall x "InstateFeatureIDs" (PyArgs.int n) p w)
      = some (Value.mati (x.InstateFeatureIDs w.estimator_ n).1) ∧
    Option.map Prod.fst (pycall x "num_instate_features" PyArgs.nil p w)
      = some (Value.int (x.num_instate_features w.estimator_).1) := by
  refine ⟨by decide, by decide, by decide, ?_⟩
  have look : ∀ m ∈ exposed, pyxivo.lookup m.cppName = some m := by decide
  refine ⟨?_, ?_, ?_, ?_, ?_, ?_, ?_, ?_, ?_, ?_, ?_, ?_, ?_, ?_, ?_, ?_, ?_, ?_, ?_, ?_, ?_, ?_⟩
  · have h := look Method.gsb (by decide)
    simp only [Method.cppName] at h
    simp [pycall, h, Method.invoke, liftQuery, EstimatorWrapper.gsb]
  · have h := look Method.gsc (by decide)
    simp only [Method.cppName] at h
    simp [pycall, h, Method.invoke, liftQuery, EstimatorWrapper.gsc]
  · have h := look Method.gbc (by decide)
    simp only [Method.cppName] at h
    simp [pycall, h, Method.invoke, liftQuery, EstimatorWrapper.gbc]
  · have h := look Method.Pstate (by decide)
    simp only [Method.cppName] at h
    simp [pycall, h, Method.invoke, liftQuery, EstimatorWrapper.Pstate]
  · have h := look Method.Vsb (by decide)
    simp only [Method.cppName] at h
    simp [pycall, h, Method.invoke, liftQuery, EstimatorWrapper.Vsb]
  · have h := look Method.bg (by decide)
    simp only [Method.cppName] at h
    simp [pycall, h, Method.invoke, liftQuery, EstimatorWrapper.bg]
  · have h := look Method.ba (by decide)
    simp only [Method.cppName] at h
    simp [pycall, h, Method.invoke, liftQuery, EstimatorWrapper.ba]
  · have h := look Method.Rg (by decide)
    simp only [Method.cppName] at h
    simp [pycall, h, Method.invoke, liftQuery, EstimatorWrapper.Rg]
  · have h := look Method.td (by decide)
    simp only [Method.cppName] at h
    simp [pycall, h, Method.invoke, liftQuery, EstimatorWrapper.td]
  · have h := look Method.Ca (by decide)
    simp only [Method.cppName] at h
    simp [pycall, h, Method.invoke, liftQuery, EstimatorWrapper.Ca]
  · have h := look Method.Cg (by decide)
    simp only [Method.cppName] at h
    simp [pycall, h, Method.invoke, liftQuery, EstimatorWrapper.Cg]
  · have h := look Method.MeasurementUpdateInitialized (by decide)
    simp only [Method.cppName] at h
    simp [pycall, h, Method.invoke, liftQuery, EstimatorWrapper.MeasurementUpdateInitialized]
  · have h := look Method.inn_Wsb (by decide)
    simp only [Method.cppName] at h
    simp [pycall, h, Method.invoke, liftQuery, EstimatorWrapper.inn_Wsb]
  · have h := look Method.inn_Tsb (by decide)
    simp only [Method.cppName] at h
    simp [pycall, h, Method.invoke, liftQuery, EstimatorWrapper.inn_Tsb]
  · have h := look Method.inn_Vsb (by decide)
    simp only [Method.cppName] at h
    simp [pycall, h, Method.invoke, liftQuery, EstimatorWrapper.inn_Vsb]
  · have h := look Method.now (by decide)
    simp only [Method.cppName] at h
    simp [pycall, h, Method.invoke, liftQuery, EstimatorWrapper.now]
  · intro hlt
    have h := look Method.now (by decide)
    simp only [Method.cppName] at h
    simp only [pycall, h, Method.invoke, liftQuery, EstimatorWrapper.now, Option.map_some',
      Nat.mod_eq_of_lt hlt]
  · have h := look Method.gauge_group (by decide)
    simp only [Method.cppName] at h
    simp [pycall, h, Method.invoke, liftQuery, EstimatorWrapper.gauge_group]
  · have h := look Method.InstateFeaturePositions (by decide)
    simp only [Method.cppName] at h
    simp [pycall, h, Method.invoke, liftQuery, EstimatorWrapper.InstateFeaturePositions]
  · have h := look Method.InstateFeatureCovs (by decide)
    simp only [Method.cppName] at h
    simp [pycall, h, Method.invoke, liftQuery, EstimatorWrapper.InstateFeatureCovs]
  · have h := look Method.InstateFeatureIDs (by decide)
    simp only [Method.cppName] at h
    simp [pycall, h, Method.invoke, liftQuery, EstimatorWrapper.InstateFeatureIDs]
  · have h := look Method.num_instate_features (by decide)
    simp only [Method.cppName] at h
    simp [pycall, h, Method.invoke, liftQuery, EstimatorWrapper.num_instate_features]

/-- C6 at a concrete input: on the reference wrapper the tick count is 0 and
fits 64 bits, so `now` returns it. -/
theorem bindings_not_cross_wired_witness :
    Option.map Prod.fst (pycall specXivo "now" PyArgs.nil specProcess specWrapper)
      = some (Value.uint64 (specXivo.ts specWrapper.estimator_).1.count) :=
  (bindings_not_cross_wired specXivo specProcess specWrapper 0).2.2.2.2.2.2.2.2.2.2.2.2.2.2.2.2.2.2.2.1
    (by decide)

/-- C8: in every intake member the estimator call comes before any viewer
update, so the viewer sees the state after the sample.  With a viewer
present (and the estimator's `gsb` query pure, so that `gsc` is read from the
same estimator state as `gsb`): `InertialMeas` makes exactly three outgoing
calls, the estimator's inertial intake, then `Update_gsb` with the body pose
of the estimator that intake produced, then `Update_gsc` with its camera
pose; `VisualMeas` and `VisualMeas2` call the estimator's visual intake
exactly once, then read the display of the canvas that intake produced, and
log and call the viewer's `Update` with that display if and only if it is
not empty. -/
theorem viewer_sees_post_update_state (x : Xivo E V C G S J) (p : Process C G)
    (w : EstimatorWrapper E V) (v : V) (hv : w.viewer_ = some v)
    (hgsb : PureQuery x.gsb) (ts : Nat) (wx wy wz ax ay az : F64)
    (image_path : String) (b : PyArray) :
    (let out := x.Estimator_InertialMeas w.estimator_ p.canvas (timestamp_t.mk ts)
        (Vec3.mk wx wy wz) (Vec3.mk ax ay az)
     let r := EstimatorWrapper.InertialMeas x p w ts wx wy wz ax ay az
     r.1.trace = p.trace ++
        [Event.Estimator_InertialMeas (timestamp_t.mk ts) (Vec3.mk wx wy wz)
           (Vec3.mk ax ay az),
         Event.Viewer_Update_gsb (x.gsb out.2.1).1,
         Event.Viewer_Update_gsc (x.gsc out.2.1).1] ∧
     r.2.viewer_ =
        some (x.Update_gsc (x.Update_gsb v (x.gsb out.2.1).1) (x.gsc out.2.1).1)) ∧
    (let image := x.imread image_path
     let out := x.Estimator_VisualMeas w.estimator_ p.canvas (timestamp_t.mk ts) image
     let disp := (x.display out.2.2).1
     let r := EstimatorWrapper.VisualMeas x p w ts image_path
     r.1.trace = p.trace ++
        [Event.imread image_path,
         Event.Estimator_VisualMeas (timestamp_t.mk ts) image,
         Event.Canvas_display] ++
        (if disp.empty = true then []
         else [Event.LOG_INFO "Display image is ready", Event.Viewer_Update disp]) ∧
     r.2.viewer_ = (if disp.empty = true then some v else some (x.Update v disp))) ∧
    (let image := CvMat.mk 640 480 CvType.CV_32S b.buffer
     let out := x.Estimator_VisualMeas w.estimator_ p.canvas (timestamp_t.mk ts) image
     let disp := (x.display out.2.2).1
     let r := EstimatorWrapper.VisualMeas2 x p w ts b
     r.1.trace = p.trace ++
        [Event.Estimator_VisualMeas (timestamp_t.mk ts) image,
         Event.Canvas_display] ++
        (if disp.empty = true then []
         else [Event.LOG_INFO "Display image is ready", Event.Viewer_Update disp]) ∧
     r.2.viewer_ = (if disp.empty = true then some v else some (x.Update v disp))) := by
  refine ⟨?_, ?_, ?_⟩
  · simp [EstimatorWrapper.InertialMeas, hv, Process.emit, hgsb _]
  · by_cases hd : (x.display (x.Estimator_VisualMeas w.estimator_ p.canvas
        (timestamp_t.mk ts) (x.imread image_path)).2.2).1.empty = true
    · simp [EstimatorWrapper.VisualMeas, EstimatorWrapper.showDisplay, hv, Process.emit, hd]
    · simp [EstimatorWrapper.VisualMeas, EstimatorWrapper.showDisplay, hv, Process.emit, hd]
  · by_cases hd : (x.display (x.Estimator_VisualMeas w.estimator_ p.canvas
        (timestamp_t.mk ts) (CvMat.mk 640 480 CvType.CV_32S b.buffer)).2.2).1.empty = true
    · simp [EstimatorWrapper.VisualMeas2, EstimatorWrapper.showDisplay, hv, Process.emit,
        PyArray.request, hd]
    · simp [EstimatorWrapper.VisualMeas2, EstimatorWrapper.showDisplay, hv, Process.emit,
        PyArray.request, hd]

/-- C8 at a concrete input: an inertial sample on the reference wrapper with
a viewer; the viewer receives the body pose and the camera pose of the
sample just applied. -/
theorem viewer_sees_post_update_state_witness :
    specWrapperV.viewer_ = some { poses := [], images := [], refreshes := 0 } ∧
    (EstimatorWrapper.InertialMeas specXivo specProcess specWrapperV 7
        (f64 1) (f64 2) (f64 3) (f64 4) (f64 5) (f64 6)).2.viewer_ =
      some { poses := [[[f64 1, f64 2, f64 3]], [[f64 4, f64 5, f64 6]]],
             images := [], refreshes := 0 } :=
  ⟨rfl, (viewer_sees_post_update_state specXivo specProcess specWrapperV
    { poses := [], images := [], refreshes := 0 } rfl (fun _ => rfl) 7
    (f64 1) (f64 2) (f64 3) (f64 4) (f64 5) (f64 6) "" (PyArray.mk [] [])).1.2⟩

/-- No member of the wrapper touches the static logging flag or calls the
logging initialisation. -/
theorem Method.invoke_glog (x : Xivo E V C G S J) (m : Method) (a : PyArgs)
    (p : Process C G) (w : EstimatorWrapper E V)
    (r : Value × Process C G × EstimatorWrapper E V)
    (h : m.invoke x a p w = some r) :
    r.2.1.glog_init_ = p.glog_init_ ∧ r.2.1.glogInits = p.glogInits := by
  have hI : ∀ ts wx wy wz ax ay az,
      (EstimatorWrapper.InertialMeas x p w ts wx wy wz ax ay az).1.glog_init_ = p.glog_init_ ∧
      (EstimatorWrapper.InertialMeas x p w ts wx wy wz ax ay az).1.glogInits = p.glogInits := by
    intro ts wx wy wz ax ay az
    cases hv : w.viewer_ <;>
      simp [EstimatorWrapper.InertialMeas, hv, Process.emit, Process.glogInits,
        List.filter_append, Event.isInitGoogleLogging]
  have hS : ∀ (q : Process C G) (u : EstimatorWrapper E V),
      (EstimatorWrapper.showDisplay x q u).1.glog_init_ = q.glog_init_ ∧
      (EstimatorWrapper.showDisplay x q u).1.glogInits = q.glogInits := by
    intro q u
    cases hv : u.viewer_ with
    | none => simp [EstimatorWrapper.showDisplay, hv]
    | some v =>
      by_cases hd : (x.display q.canvas).1.empty = true <;>
        simp [EstimatorWrapper.showDisplay, hv, hd, Process.emit, Process.glogInits,
          List.filter_append, Event.isInitGoogleLogging]
  have hV : ∀ ts path,
      (EstimatorWrapper.VisualMeas x p w ts path).1.glog_init_ = p.glog_init_ ∧
      (EstimatorWrapper.VisualMeas x p w ts path).1.glogInits = p.glogInits := by
    intro ts path
    simp only [EstimatorWrapper.VisualMeas]
    refine ⟨(hS _ _).1.trans ?_, (hS _ _).2.trans ?_⟩ <;>
      simp [Process.emit, Process.glogInits, List.filter_append, Event.isInitGoogleLogging]
  have hV2 : ∀ ts b,
      (EstimatorWrapper.VisualMeas2 x p w ts b).1.glog_init_ = p.glog_init_ ∧
      (EstimatorWrapper.VisualMeas2 x p w ts b).1.glogInits = p.glogInits := by
    intro ts b
    simp only [EstimatorWrapper.VisualMeas2]
    refine ⟨(hS _ _).1.trans ?_, (hS _ _).2.trans ?_⟩ <;>
      simp [Process.emit, Process.glogInits, List.filter_append, Event.isInitGoogleLogging]
  have hZ : (EstimatorWrapper.Visualize x p w).1.glog_init_ = p.glog_init_ ∧
      (EstimatorWrapper.Visualize x p w).1.glogInits = p.glogInits := by
    cases hv : w.viewer_ <;>
      simp [EstimatorWrapper.Visualize, hv, Process.emit, Process.glogInits,
        List.filter_append, Event.isInitGoogleLogging]
  cases m <;> cases a <;>
    simp only [Method.invoke, liftQuery, liftVoid, Option.some.injEq, reduceCtorEq] at h <;>
    subst h
  case InertialMeas.inertial => exact hI _ _ _ _ _ _ _
  case VisualMeas.visual => exact hV _ _
  case VisualMeas2.visual2 => exact hV2 _ _
  case Visualize.nil => exact hZ
  all_goals exact ⟨rfl, rfl⟩

/-- A call step keeps the logging flag and the number of logging
initialisations. -/
theorem Session.step_call_glog (x : Xivo E V C G S J) (s : Session E V C G)
    (i : Nat) (name : String) (a : PyArgs) :
    (Session.step x s (Op.call i name a)).proc.glog_init_ = s.proc.glog_init_ ∧
    (Session.step x s (Op.call i name a)).proc.glogInits = s.proc.glogInits := by
  simp only [Session.step]
  cases hw : s.objs[i]? with
  | none => exact ⟨rfl, rfl⟩
  | some w =>
    simp only []
    cases hc : pycall x name a s.proc w with
    | none => exact ⟨rfl, rfl⟩
    | some r =>
      simp only []
      unfold pycall at hc
      cases hl : pyxivo.lookup name with
      | none => simp [hl] at hc
      | some m =>
        simp only [hl] at hc
        exact Method.invoke_glog x m a s.proc w r hc

/-- A construction sets the logging flag, and calls the logging
initialisation as its first outgoing call exactly when the flag was not
set. -/
theorem Session.step_construct_glog (x : Xivo E V C G S J) (s : Session E V C G)
    (cfg_path viewer_cfg_path name : String) :
    (Session.step x s (Op.construct cfg_path viewer_cfg_path name)).proc.glog_init_ = true ∧
    (Session.step x s (Op.construct cfg_path viewer_cfg_path name)).proc.glogInits =
      s.proc.glogInits + (if s.proc.glog_init_ = true then 0 else 1) ∧
    (s.proc.glog_init_ = false →
      ∃ rest, (Session.step x s (Op.construct cfg_path viewer_cfg_path name)).proc.trace =
        s.proc.trace ++ Event.InitGoogleLogging "pyxivo" :: rest) := by
  cases hg : s.proc.glog_init_ <;> cases hp : viewer_cfg_path.isEmpty <;>
    simp [Session.step, EstimatorWrapper.new, hg, hp, Process.emit, Process.glogInits,
      List.filter_append, Event.isInitGoogleLogging]

/-- Once the logging flag is set and the initialisation has been called
once, every further step keeps both. -/
theorem Session.run_glog_set (x : Xivo E V C G S J) (ops : List Op)
    (s : Session E V C G) (hg : s.proc.glog_init_ = true) (hn : s.proc.glogInits = 1) :
    (Session.run x s ops).proc.glog_init_ = true ∧
    (Session.run x s ops).proc.glogInits = 1 := by
  induction ops generalizing s with
  | nil => exact ⟨hg, hn⟩
  | cons op ops ih =>
    simp only [Session.run, List.foldl_cons]
    cases op with
    | construct c v n =>
      have h := Session.step_construct_glog x s c v n
      exact ih _ h.1 (by rw [h.2.1, hg, hn]; simp)
    | call i name a =>
      have h := Session.step_call_glog x s i name a
      exact ih _ (h.1.trans hg) (h.2.trans hn)

/-- Before the first construction the logging flag is unset and the
initialisation has not been called. -/
theorem Session.run_glog_unset (x : Xivo E V C G S J) (ops : List Op)
    (hops : ∀ op ∈ ops, op.isConstruct = false)
    (s : Session E V C G) (hg : s.proc.glog_init_ = false) (hn : s.proc.glogInits = 0) :
    (Session.run x s ops).proc.glog_init_ = false ∧
    (Session.run x s ops).proc.glogInits = 0 := by
  induction ops generalizing s with
  | nil => exact ⟨hg, hn⟩
  | cons op ops ih =>
    simp only [Session.run, List.foldl_cons]
    cases op with
    | construct c v n =>
      have := hops (Op.construct c v n) (List.mem_cons_self _ _)
      simp [Op.isConstruct] at this
    | call i name a =>
      have h := Session.step_call_glog x s i name a
      exact ih (fun op hop => hops op (List.mem_cons_of_mem _ hop)) _
        (h.1.trans hg) (h.2.trans hn)

/-- C10: logging is initialised exactly once per process.  In a session of a
fresh process, split at its first construction: before it the flag is unset
and `InitGoogleLogging` has not been called; the first construction calls it
as its first outgoing call and sets the flag; after any further steps
(constructions or calls on any object) it has still been called exactly once
and the flag is still set; and no step ever resets a set flag. -/
theorem logging_initialised_once (x : Xivo E V C G S J) (canvas : C)
    (pre post : List Op) (cfg_path viewer_cfg_path name : String)
    (hpre : ∀ op ∈ pre, op.isConstruct = false) :
    let s0 : Session E V C G := Session.run x (Session.init canvas) pre
    let s1 := Session.step x s0 (Op.construct cfg_path viewer_cfg_path name)
    let s2 := Session.run x (Session.init canvas)
      (pre ++ Op.construct cfg_path viewer_cfg_path name :: post)
    (s0.proc.glog_init_ = false ∧ s0.proc.glogInits = 0) ∧
    (∃ rest, s1.proc.trace = s0.proc.trace ++ Event.InitGoogleLogging "pyxivo" :: rest) ∧
    (s1.proc.glog_init_ = true ∧ s1.proc.glogInits = 1) ∧
    (s2.proc.glog_init_ = true ∧ s2.proc.glogInits = 1) ∧
    (∀ (s : Session E V C G) (op : Op), s.proc.glog_init_ = true →
      (Session.step x s op).proc.glog_init_ = true) := by
  intro s0 s1 s2
  have h0 : s0.proc.glog_init_ = false ∧ s0.proc.glogInits = 0 :=
    Session.run_glog_unset x pre hpre _ rfl rfl
  have hc := Session.step_construct_glog x s0 cfg_path viewer_cfg_path name
  have h1 : s1.proc.glog_init_ = true ∧ s1.proc.glogInits = 1 := by
    refine ⟨hc.1, ?_⟩
    show (Session.step x s0 _).proc.glogInits = 1
    rw [hc.2.1, h0.1, h0.2]
    simp
  have h2 : s2 = Session.run x s1 post := by
    simp [s2, s1, s0, Session.run, List.foldl_append]
  refine ⟨h0, hc.2.2 h0.1, h1, ?_, ?_⟩
  · rw [h2]
    exact Session.run_glog_set x post s1 h1.1 h1.2
  · intro s op hs
    cases op with
    | construct c v n => exact (Session.step_construct_glog x s c v n).1
    | call i nm a => exact (Session.step_call_glog x s i nm a).1.trans hs

/-- C10 at a concrete input: a call on a missing object, then two
constructions with a call in between. -/
theorem logging_initialised_once_witness :
    (Session.run specXivo (Session.init (CvMat.mk 0 0 CvType.CV_8UC3 []))
      ([Op.call 0 "gsb" PyArgs.nil] ++ Op.construct "a.json" "" "first" ::
        [Op.call 0 "Visualize" PyArgs.nil, Op.construct "b.json" "v.json" "second"])).proc.glogInits
      = 1 :=
  (logging_initialised_once specXivo (CvMat.mk 0 0 CvType.CV_8UC3 [])
    [Op.call 0 "gsb" PyArgs.nil]
    [Op.call 0 "Visualize" PyArgs.nil, Op.construct "b.json" "v.json" "second"]
    "a.json" "" "first" (by decide)).2.2.2.1.2

/-- One command keeps two runs in step, when the pose queries and the display
read are pure. -/
theorem Cmd.run_inStep (x : Xivo E V C G S J) (hgsb : PureQuery x.gsb)
    (hgsc : PureQuery x.gsc) (hdisp : x.DisplayPure) (calls : List (Event G))
    (a b : Process C G × EstimatorWrapper E V) (h : InStep calls a b) (c : Cmd) :
    InStep calls (Cmd.run x a c) (Cmd.run x b c) := by
  obtain ⟨he, hc, hv, hk⟩ := h
  have hS : ∀ (qa qb : Process C G) (ua ub : EstimatorWrapper E V),
      ua.estimator_ = ub.estimator_ → qa.canvas = qb.canvas → ua.viewer_ = none →
      qa.viewerCalls = calls →
      InStep calls (EstimatorWrapper.showDisplay x qa ua)
        (EstimatorWrapper.showDisplay x qb ub) := by
    intro qa qb ua ub h1 h2 h3 h4
    cases hvb : ub.viewer_ with
    | none => simp [InStep, EstimatorWrapper.showDisplay, h1, h2, h3, h4, hvb]
    | some v =>
      by_cases hd : (x.display qb.canvas).1.empty = true <;>
        simp [InStep, EstimatorWrapper.showDisplay, h1, h2, h3, h4, hvb, hd, hdisp _,
          Process.emit]
  cases c with
  | InertialMeas ts wx wy wz ax ay az =>
    cases hvb : b.2.viewer_ with
    | none =>
      simp [InStep, Cmd.run, EstimatorWrapper.InertialMeas, he, hc, hv, hvb, Process.emit,
        Process.viewerCalls, List.filter_append, Event.isViewer]
      simpa [Process.viewerCalls] using hk
    | some v =>
      simp [InStep, Cmd.run, EstimatorWrapper.InertialMeas, he, hc, hv, hvb, Process.emit,
        Process.viewerCalls, List.filter_append, Event.isViewer, hgsb _, hgsc _]
      simpa [Process.viewerCalls] using hk
  | VisualMeas ts path =>
    simp only [Cmd.run, EstimatorWrapper.VisualMeas]
    apply hS
    · simp [he, hc, Process.emit]
    · simp [he, hc, Process.emit]
    · simp [hv]
    · simpa [Process.viewerCalls, Process.emit, List.filter_append, Event.isViewer] using hk
  | VisualMeas2 ts arr =>
    simp only [Cmd.run, EstimatorWrapper.VisualMeas2]
    apply hS
    · simp [he, hc, Process.emit]
    · simp [he, hc, Process.emit]
    · simp [hv]
    · simpa [Process.viewerCalls, Process.emit, List.filter_append, Event.isViewer] using hk
  | Visualize =>
    cases hvb : b.2.viewer_ <;>
      simp [InStep, Cmd.run, EstimatorWrapper.Visualize, he, hc, hv, hvb, hk, Process.emit]

/-- A sequence of commands keeps two runs in step. -/
theorem runCmds_inStep (x : Xivo E V C G S J) (hgsb : PureQuery x.gsb)
    (hgsc : PureQuery x.gsc) (hdisp : x.DisplayPure) (calls : List (Event G))
    (cmds : List Cmd) (a b : Process C G × EstimatorWrapper E V) (h : InStep calls a b) :
    InStep calls (runCmds x a cmds) (runCmds x b cmds) := by
  induction cmds generalizing a b with
  | nil => exact h
  | cons c cmds ih =>
    simp only [runCmds, List.foldl_cons]
    exact ih _ _ (Cmd.run_inStep x hgsb hgsc hdisp calls a b h c)

/-- The value of an accessor depends on the estimator only. -/
theorem Method.invoke_accessor_congr (x : Xivo E V C G S J) (m : Method)
    (hm : m ∈ accessors) (args : PyArgs) (pa pb : Process C G)
    (wa wb : EstimatorWrapper E V) (he : wa.estimator_ = wb.estimator_) :
    Option.map Prod.fst (m.invoke x args pa wa) =
      Option.map Prod.fst (m.invoke x args pb wb) := by
  cases m <;> cases args <;>
    simp_all [accessors, Method.invoke, liftQuery,
      EstimatorWrapper.gsb, EstimatorWrapper.gsc,
      EstimatorWrapper.gbc, EstimatorWrapper.Pstate, EstimatorWrapper.Vsb,
      EstimatorWrapper.bg, EstimatorWrapper.ba, EstimatorWrapper.Rg,
      EstimatorWrapper.td, EstimatorWrapper.Ca, EstimatorWrapper.Cg,
      EstimatorWrapper.MeasurementUpdateInitialized, EstimatorWrapper.inn_Wsb,
      EstimatorWrapper.inn_Tsb, EstimatorWrapper.inn_Vsb, EstimatorWrapper.now,
      EstimatorWrapper.gauge_group, EstimatorWrapper.InstateFeaturePositions,
      EstimatorWrapper.InstateFeatureCovs, EstimatorWrapper.InstateFeatureIDs,
      EstimatorWrapper.num_instate_features]

/-- C7: the viewer never influences the estimator.  Construct one wrapper
with an empty viewer configuration path and one with any path (so, with a
viewer when the path is not empty), from the same process state and the same
other arguments, and run the same sequence of `InertialMeas`, `VisualMeas`,
`VisualMeas2` and `Visualize` calls on each.  With the estimator's `gsb` and
`gsc` queries and the canvas display read pure, the two estimators and the
two canvases are equal afterwards, so every accessor returns the same value
on both; the wrapper without viewer still has none, no viewer call was made
in its run, and `Visualize` on it changes nothing. -/
theorem viewer_never_influences_estimator (x : Xivo E V C G S J)
    (hgsb : PureQuery x.gsb) (hgsc : PureQuery x.gsc) (hdisp : x.DisplayPure)
    (p : Process C G) (cfg_path viewer_cfg_path name : String) (cmds : List Cmd) :
    let a := runCmds x (EstimatorWrapper.new x p cfg_path "" name) cmds
    let b := runCmds x (EstimatorWrapper.new x p cfg_path viewer_cfg_path name) cmds
    (viewer_cfg_path.isEmpty = false →
      (EstimatorWrapper.new x p cfg_path viewer_cfg_path name).2.viewer_.isSome = true) ∧
    a.2.estimator_ = b.2.estimator_ ∧
    a.1.canvas = b.1.canvas ∧
    (∀ m ∈ accessors, ∀ args,
      Option.map Prod.fst (m.invoke x args a.1 a.2) =
        Option.map Prod.fst (m.invoke x args b.1 b.2)) ∧
    a.2.viewer_ = none ∧
    a.1.viewerCalls = p.viewerCalls ∧
    EstimatorWrapper.Visualize x a.1 a.2 = a := by
  intro a b
  have hempty : ("" : String).isEmpty = true := by decide
  have h0 : InStep p.viewerCalls (EstimatorWrapper.new x p cfg_path "" name)
      (EstimatorWrapper.new x p cfg_path viewer_cfg_path name) := by
    cases hg : p.glog_init_ <;> cases hp : viewer_cfg_path.isEmpty <;>
      simp [InStep, EstimatorWrapper.new, hg, hp, hempty, Process.emit, Process.viewerCalls,
        List.filter_append, Event.isViewer]
  have h := runCmds_inStep x hgsb hgsc hdisp p.viewerCalls cmds _ _ h0
  obtain ⟨he, hc, hv, hk⟩ := h
  refine ⟨?_, he, hc, ?_, hv, hk, ?_⟩
  · intro hp
    simp [EstimatorWrapper.new, hp]
  · intro m hm args
    exact Method.invoke_accessor_congr x m hm args _ _ _ _ he
  · show EstimatorWrapper.Visualize x a.1 a.2 = a
    have hv' : a.2.viewer_ = none := hv
    simp [EstimatorWrapper.Visualize, hv']

/-- C7 at a concrete input: an inertial sample, a frame given as an array, a
refresh and a frame read from a path, on the reference instance. -/
theorem viewer_never_influences_estimator_witness :
    (runCmds specXivo (EstimatorWrapper.new specXivo specProcess "cfg.json" "" "demo")
      [Cmd.InertialMeas 3 (f64 1) (f64 2) (f64 3) (f64 4) (f64 5) (f64 6),
       Cmd.VisualMeas2 4 (PyArray.mk [1, 2] [7, 8]), Cmd.Visualize,
       Cmd.VisualMeas 5 "a.png"]).2.estimator_ =
    (runCmds specXivo (EstimatorWrapper.new specXivo specProcess "cfg.json" "viewer.json" "demo")
      [Cmd.InertialMeas 3 (f64 1) (f64 2) (f64 3) (f64 4) (f64 5) (f64 6),
       Cmd.VisualMeas2 4 (PyArray.mk [1, 2] [7, 8]), Cmd.Visualize,
       Cmd.VisualMeas 5 "a.png"]).2.estimator_ :=
  (viewer_never_influences_estimator specXivo (fun _ => rfl) (fun _ => rfl) (fun _ => rfl)
    specProcess "cfg.json" "viewer.json" "demo"
    [Cmd.InertialMeas 3 (f64 1) (f64 2) (f64 3) (f64 4) (f64 5) (f64 6),
     Cmd.VisualMeas2 4 (PyArray.mk [1, 2] [7, 8]), Cmd.Visualize,
     Cmd.VisualMeas 5 "a.png"]).2.1

/-- Each of the three intake members can change the estimator: on the
reference instance an accepted inertial sample moves the estimator's time
and a frame is counted. -/
theorem intakes_canChange :
    ∀ m ∈ intakes, CanChangeEstimator SpecEstimator SpecViewer CvMat MatX MatX String m := by
  intro m hm
  simp only [intakes, List.mem_cons, List.mem_singleton, List.not_mem_nil, or_false] at hm
  rcases hm with rfl | rfl | rfl
  · exact ⟨specXivo, specXivo_queriesPure,
      PyArgs.inertial 5 (f64 1) (f64 2) (f64 3) (f64 4) (f64 5) (f64 6),
      specProcess, specWrapper, _, rfl, by decide⟩
  · exact ⟨specXivo, specXivo_queriesPure, PyArgs.visual 5 "a.png",
      specProcess, specWrapper, _, rfl, by decide⟩
  · exact ⟨specXivo, specXivo_queriesPure, PyArgs.visual2 5 (PyArray.mk [1, 2] [7, 8]),
      specProcess, specWrapper, _, rfl, by decide⟩

/-- C2 as stated fails: the members exposed by the binding that can change
the estimator are not two.  `InertialMeas`, `VisualMeas` and `VisualMeas2`
are three different exposed members and each of them can change the
estimator, so no two members account for all of them. -/
theorem not_exactly_two_mutating_entry_points :
    ¬ ∃ m₁ m₂ : Method, ∀ m ∈ exposed,
      (CanChangeEstimator SpecEstimator SpecViewer CvMat MatX MatX String m ↔
        (m = m₁ ∨ m = m₂)) := by
  rintro ⟨m₁, m₂, h⟩
  have h1 := (h Method.InertialMeas (by decide)).mp (intakes_canChange _ (by decide))
  have h2 := (h Method.VisualMeas (by decide)).mp (intakes_canChange _ (by decide))
  have h3 := (h Method.VisualMeas2 (by decide)).mp (intakes_canChange _ (by decide))
  rcases h1 with h1 | h1 <;> rcases h2 with h2 | h2 <;> rcases h3 with h3 | h3 <;>
    subst_vars <;> simp_all

/-- A member other than the three intake members leaves the estimator as it
was, when the estimator's query surface is read-only. -/
theorem Method.invoke_keeps_estimator (x : Xivo E V C G S J) (hq : x.QueriesPure)
    (m : Method) (hni : m ∉ intakes) (a : PyArgs) (p : Process C G)
    (w : EstimatorWrapper E V) (r : Value × Process C G × EstimatorWrapper E V)
    (h : m.invoke x a p w = some r) : r.2.2.estimator_ = w.estimator_ := by
  have hp := hq m
  cases m <;> cases a <;>
    simp only [Method.invoke, liftQuery, liftVoid, Option.some.injEq, reduceCtorEq] at h <;>
    subst h
  case Visualize.nil =>
    cases hv : w.viewer_ <;> simp [EstimatorWrapper.Visualize, hv]
  case InertialMeas.inertial => exact absurd (by decide) hni
  case VisualMeas.visual => exact absurd (by decide) hni
  case VisualMeas2.visual2 => exact absurd (by decide) hni
  all_goals
    simp_all [Xivo.queryPure, PureQuery, EstimatorWrapper.gsb, EstimatorWrapper.gsc,
      EstimatorWrapper.gbc, EstimatorWrapper.Pstate, EstimatorWrapper.Vsb,
      EstimatorWrapper.bg, EstimatorWrapper.ba, EstimatorWrapper.Rg,
      EstimatorWrapper.td, EstimatorWrapper.Ca, EstimatorWrapper.Cg,
      EstimatorWrapper.MeasurementUpdateInitialized, EstimatorWrapper.inn_Wsb,
      EstimatorWrapper.inn_Tsb, EstimatorWrapper.inn_Vsb, EstimatorWrapper.now,
      EstimatorWrapper.gauge_group, EstimatorWrapper.InstateFeaturePositions,
      EstimatorWrapper.InstateFeatureCovs, EstimatorWrapper.InstateFeatureIDs,
      EstimatorWrapper.num_instate_features]

/-- C2, amended: the binding exposes exactly three members that can change
the estimator, `InertialMeas` for inertial samples and `VisualMeas` and
`VisualMeas2` for visual samples; every other exposed member (the 21
accessors, with the estimator's query surface read-only, and `Visualize`)
leaves the estimator as it was. -/
theorem three_mutating_entry_points (x : Xivo E V C G S J) (hq : x.QueriesPure) :
    (∀ m ∈ exposed, m ∉ intakes → ∀ (a : PyArgs) (p : Process C G)
      (w : EstimatorWrapper E V) (r : Value × Process C G × EstimatorWrapper E V),
      m.invoke x a p w = some r → r.2.2.estimator_ = w.estimator_) ∧
    (∀ m ∈ exposed,
      (CanChangeEstimator SpecEstimator SpecViewer CvMat MatX MatX String m ↔ m ∈ intakes)) ∧
    (∀ m ∈ intakes, m ∈ exposed) ∧
    intakes.Nodup ∧ intakes.length = 3 := by
  refine ⟨?_, ?_, by decide, by decide, rfl⟩
  · intro m _ hni a p w r h
    exact Method.invoke_keeps_estimator x hq m hni a p w r h
  · intro m _
    constructor
    · rintro ⟨y, hy, a, p, w, r, hr, hne⟩
      by_contra hni
      exact hne (Method.invoke_keeps_estimator y hy m hni a p w r hr)
    · exact intakes_canChange m

/-- C2, amended, at a concrete input: `gsb` on the reference wrapper leaves
the estimator as it was. -/
theorem three_mutating_entry_points_witness :
    (EstimatorWrapper.gsb specXivo specWrapper).2.estimator_ = specWrapper.estimator_ :=
  (three_mutating_entry_points specXivo specXivo_queriesPure).1 Method.gsb
    (by decide) (by decide) PyArgs.nil specProcess specWrapper
    (Value.mat (EstimatorWrapper.gsb specXivo specWrapper).1, specProcess,
      (EstimatorWrapper.gsb specXivo specWrapper).2) rfl

/-- C3 as stated fails: no signal reaches the caller.  On the reference
instance, whose estimator is at time 10, the sample at time 5 is out of order
and the estimator's intake answers `OutOfOrderSample`, while the sample at
time 20 is accepted; the Python call `InertialMeas` hands back the same
value, the `void` result, for both. -/
theorem out_of_order_signal_not_reported :
    5 < (specXivo.ts specWrapperAt10.estimator_).1.count ∧
    (specXivo.Estimator_InertialMeas specWrapperAt10.estimator_ specProcess.canvas
      (timestamp_t.mk 5) (Vec3.mk (f64 1) (f64 2) (f64 3))
      (Vec3.mk (f64 4) (f64 5) (f64 6))).1 = Status.OutOfOrderSample ∧
    (specXivo.Estimator_InertialMeas specWrapperAt10.estimator_ specProcess.canvas
      (timestamp_t.mk 20) (Vec3.mk (f64 1) (f64 2) (f64 3))
      (Vec3.mk (f64 4) (f64 5) (f64 6))).1 = Status.Ok ∧
    Option.map Prod.fst (pycall specXivo "InertialMeas"
      (PyArgs.inertial 5 (f64 1) (f64 2) (f64 3) (f64 4) (f64 5) (f64 6))
      specProcess specWrapperAt10) = some Value.none ∧
    Option.map Prod.fst (pycall specXivo "InertialMeas"
      (PyArgs.inertial 20 (f64 1) (f64 2) (f64 3) (f64 4) (f64 5) (f64 6))
      specProcess specWrapperAt10) = some Value.none := by
  refine ⟨by decide, by decide, by decide, rfl, rfl⟩

/-- C3, amended: for an inertial sample older than the estimator's current
time, the wrapper's `InertialMeas` returns the `void` result, so the
`OutOfOrderSample` answer of the estimator's intake is discarded and not
reported to the caller; and provided the estimator drops such a sample and
its `gsb` and `gsc` queries are pure, the estimator (hence the covariance it
reports) and the canvas after the call are identical to those before. -/
theorem InertialMeas_out_of_order (x : Xivo E V C G S J) (hdrop : x.DropsOutOfOrder)
    (hgsb : PureQuery x.gsb) (hgsc : PureQuery x.gsc) (p : Process C G)
    (w : EstimatorWrapper E V) (ts : Nat) (wx wy wz ax ay az : F64)
    (hold : ts < (x.ts w.estimator_).1.count) :
    Option.map Prod.fst
      (Method.invoke x Method.InertialMeas (PyArgs.inertial ts wx wy wz ax ay az) p w)
      = some Value.none ∧
    (x.Estimator_InertialMeas w.estimator_ p.canvas (timestamp_t.mk ts)
      (Vec3.mk wx wy wz) (Vec3.mk ax ay az)).1 = Status.OutOfOrderSample ∧
    (EstimatorWrapper.InertialMeas x p w ts wx wy wz ax ay az).2.estimator_ = w.estimator_ ∧
    (x.Pstate (EstimatorWrapper.InertialMeas x p w ts wx wy wz ax ay az).2.estimator_).1
      = (x.Pstate w.estimator_).1 ∧
    (EstimatorWrapper.InertialMeas x p w ts wx wy wz ax ay az).1.canvas = p.canvas := by
  have hd := hdrop w.estimator_ p.canvas (timestamp_t.mk ts) (Vec3.mk wx wy wz)
    (Vec3.mk ax ay az) hold
  have he : (EstimatorWrapper.InertialMeas x p w ts wx wy wz ax ay az).2.estimator_
      = w.estimator_ := by
    cases hv : w.viewer_ <;>
      simp [EstimatorWrapper.InertialMeas, hv, hd, hgsb _, hgsc _]
  refine ⟨by simp [Method.invoke, liftVoid], by rw [hd], he, by rw [he], ?_⟩
  cases hv : w.viewer_ <;>
    simp [EstimatorWrapper.InertialMeas, hv, hd, Process.emit]

/-- C3, amended, at a concrete input: the sample at time 5 on the reference
wrapper whose estimator is at time 10. -/
theorem InertialMeas_out_of_order_witness :
    5 < (specXivo.ts specWrapperAt10.estimator_).1.count ∧
    (EstimatorWrapper.InertialMeas specXivo specProcess specWrapperAt10 5
      (f64 1) (f64 2) (f64 3) (f64 4) (f64 5) (f64 6)).2.estimator_
      = specWrapperAt10.estimator_ :=
  ⟨by decide, (InertialMeas_out_of_order specXivo specXivo_dropsOutOfOrder
    (fun _ => rfl) (fun _ => rfl) specProcess specWrapperAt10 5
    (f64 1) (f64 2) (f64 3) (f64 4) (f64 5) (f64 6) (by decide)).2.2.1⟩

/-- Reading a list with a range removed is reading the list at the skipped
index. -/
theorem removeRange_getElem? {α : Type} (a k : Nat) (l : List α) (i : Nat) :
    (removeRange a k l)[i]? = l[skipRange a k i]? := by
  unfold removeRange skipRange
  rw [List.getElem?_append]
  simp only [List.length_take, List.getElem?_take, List.getElem?_drop]
  by_cases h : i < a
  · by_cases h2 : i < l.length
    · simp [h, h2]
    · have h3 : l.length ≤ i := by omega
      simp [h, h2]
      rw [List.getElem?_eq_none h3, List.getElem?_eq_none]
      have : min a l.length = l.length := by omega
      omega
  · by_cases h2 : a ≤ l.length
    · have : min a l.length = a := by omega
      simp [h, this]
      congr 1
      omega
    · have : min a l.length = l.length := by omega
      simp [h, this]
      have h3 : ¬ i < l.length := by omega
      simp [h3]
      rw [List.getElem?_eq_none (by omega), List.getElem?_eq_none (by omega)]

/-- Removing a range that lies inside the list shortens it by the size of the
range. -/
theorem removeRange_length {α : Type} (a k : Nat) (l : List α) (h : a + k ≤ l.length) :
    (removeRange a k l).length + k = l.length := by
  unfold removeRange
  simp [List.length_append, List.length_take, List.length_drop]
  omega

/-- Cutting the appended columns off every extended row gives the rows back. -/
theorem zipWith_append_removeRange (n : Nat) (P cross : MatX)
    (hlen : cross.length = P.length) (hP : ∀ row ∈ P, row.length = n)
    (hc : ∀ c ∈ cross, c.length = landmarkDim) :
    (List.zipWith (fun row c => row ++ c) P cross).map (removeRange n landmarkDim) = P := by
  induction P generalizing cross with
  | nil => simp
  | cons row P ih =>
    cases cross with
    | nil => simp at hlen
    | cons c cross =>
      simp only [List.zipWith_cons_cons, List.map_cons]
      have h1 : row.length = n := hP row (List.mem_cons_self _ _)
      have h2 : c.length = landmarkDim := hc c (List.mem_cons_self _ _)
      rw [ih cross (by simpa using hlen) (fun r hr => hP r (List.mem_cons_of_mem _ hr))
        (fun r hr => hc r (List.mem_cons_of_mem _ hr))]
      congr 1
      unfold removeRange
      rw [← h1, List.take_left' rfl]
      rw [List.drop_eq_nil_of_le (by simp [h2])]
      simp

/-- A successful promotion met its conditions and produced the extended
store. -/
theorem Store.promote_eq (s : Store) (id : Nat) (cross rows : MatX) (s' : Store)
    (hp : s.promote id cross rows = some s') :
    (id ∉ s.ids ∧ s.ids.length < s.capacity ∧
      cross.length = s.P.length ∧ (∀ c ∈ cross, c.length = landmarkDim) ∧
      rows.length = landmarkDim ∧
      (∀ r ∈ rows, r.length = s.P.length + landmarkDim)) ∧
    s' = { s with P := List.zipWith (fun row c => row ++ c) s.P cross ++ rows,
                  ids := s.ids ++ [id] } := by
  unfold Store.promote at hp
  split at hp
  · rename_i h
    exact ⟨h, (Option.some.inj hp).symm⟩
  · cases hp

/-- Promotion adds 3 dimensions and one landmark, keeps the store well formed
and every prior covariance entry, and is undone by evicting the landmark. -/
theorem Store.promote_grows (s : Store) (hwf : s.WF) (id : Nat) (cross rows : MatX)
    (s' : Store) (hp : s.promote id cross rows = some s') :
    s'.dim = s.dim + 3 ∧ s'.ids.length = s.ids.length + 1 ∧ s'.WF ∧
    (∀ i j, i < s.dim → j < s.dim → entry s'.P i j = entry s.P i j) ∧
    s'.evict id = some s := by
  obtain ⟨⟨hid, _, hcl, hcw, hrl, hrw⟩, rfl⟩ := Store.promote_eq s id cross rows s' hp
  obtain ⟨hdim, hrows, hnd⟩ := hwf
  have hzl : (List.zipWith (fun row c => row ++ c) s.P cross).length = s.P.length := by
    simp [hcl]
  refine ⟨?_, ?_, ⟨?_, ?_, ?_⟩, ?_, ?_⟩
  · simp [Store.dim, hzl, hrl, landmarkDim]
  · simp
  · simp [hzl, hrl, hdim, landmarkDim]
    omega
  · intro row hrow
    simp only [List.mem_append] at hrow
    simp only [List.length_append, hzl, hrl]
    rcases hrow with hrow | hrow
    · obtain ⟨i, hi, rfl⟩ := List.getElem_of_mem hrow
      simp only [List.getElem_zipWith, List.length_append]
      rw [hrows _ (List.getElem_mem _), hcw _ (List.getElem_mem _)]
    · exact hrw row hrow
  · exact List.nodup_append.mpr ⟨hnd, List.nodup_singleton id, by simpa using hid⟩
  · intro i j hi hj
    simp only [Store.dim] at hi hj
    have hic : i < cross.length := by omega
    simp only [entry]
    rw [List.getElem?_append_left (by omega)]
    simp only [List.getElem?_zipWith, List.getElem?_eq_getElem hi, List.getElem?_eq_getElem hic,
      Option.map_some', Option.bind_some, Option.some_bind]
    exact List.getElem?_append_left (by rw [hrows _ (List.getElem_mem _)]; exact hj)
  · have hmem : id ∈ s.ids ++ [id] := by simp
    have hidx : (s.ids ++ [id]).indexOf id = s.ids.length := by
      rw [List.indexOf_append_of_not_mem hid]
      simp
    have herase : (s.ids ++ [id]).erase id = s.ids := by
      rw [List.erase_append_right _ hid]
      simp
    have hP : (removeRange s.P.length landmarkDim
        (List.zipWith (fun row c => row ++ c) s.P cross ++ rows)).map
          (removeRange s.P.length landmarkDim) = s.P := by
      have h1 : removeRange s.P.length landmarkDim
          (List.zipWith (fun row c => row ++ c) s.P cross ++ rows)
          = List.zipWith (fun row c => row ++ c) s.P cross := by
        unfold removeRange
        rw [List.take_left' hzl, List.drop_eq_nil_of_le (by simp [hzl, hrl])]
        simp
      rw [h1]
      exact zipWith_append_removeRange s.P.length s.P cross hcl hrows hcw
    simp only [Store.evict, hmem, if_true, hidx, ← hdim, hP, herase]

/-- Eviction removes 3 dimensions and one landmark, keeps the store well
formed, and every remaining covariance entry is the entry it was. -/
theorem Store.evict_shrinks (t : Store) (ht : t.WF) (id : Nat) (t' : Store)
    (he : t.evict id = some t') :
    t'.dim + 3 = t.dim ∧ t'.ids.length + 1 = t.ids.length ∧ t'.WF ∧
    (∀ i j, entry t'.P i j =
      entry t.P (skipRange (t.base + landmarkDim * t.ids.indexOf id) landmarkDim i)
        (skipRange (t.base + landmarkDim * t.ids.indexOf id) landmarkDim j)) := by
  obtain ⟨hdim, hrows, hnd⟩ := ht
  unfold Store.evict at he
  split at he
  · rename_i hmem
    have hidx : t.ids.indexOf id < t.ids.length := List.indexOf_lt_length.mpr hmem
    have ha : t.base + landmarkDim * t.ids.indexOf id + landmarkDim ≤ t.P.length := by
      rw [hdim]
      have : landmarkDim * (t.ids.indexOf id + 1) ≤ landmarkDim * t.ids.length :=
        Nat.mul_le_mul_left _ hidx
      rw [Nat.mul_add, Nat.mul_one] at this
      omega
    have hlen := removeRange_length _ _ t.P ha
    have hel : (t.ids.erase id).length + 1 = t.ids.length := by
      rw [List.length_erase_of_mem hmem]
      omega
    have he' := (Option.some.inj he).symm
    subst he'
    refine ⟨?_, hel, ⟨?_, ?_, hnd.erase id⟩, ?_⟩
    · simp only [Store.dim, List.length_map]
      simpa [landmarkDim] using hlen
    · simp only [List.length_map]
      have h3 : landmarkDim * t.ids.length = landmarkDim * (t.ids.erase id).length + landmarkDim := by
        rw [← hel, Nat.mul_add, Nat.mul_one]
      omega
    · intro row hrow
      simp only [List.mem_map] at hrow
      obtain ⟨r0, hr0, rfl⟩ := hrow
      have hr0P : r0 ∈ t.P := by
        unfold removeRange at hr0
        rcases List.mem_append.mp hr0 with h | h
        · exact List.mem_of_mem_take h
        · exact List.mem_of_mem_drop h
      have hr0len := hrows r0 hr0P
      have := removeRange_length (t.base + landmarkDim * t.ids.indexOf id) landmarkDim r0
        (by rw [hr0len]; exact ha)
      simp only [List.length_map]
      omega
    · intro i j
      simp only [entry, List.getElem?_map, removeRange_getElem?]
      cases t.P[skipRange (t.base + landmarkDim * t.ids.indexOf id) landmarkDim i]? with
      | none => rfl
      | some row => simp [removeRange_getElem?]
  · cases he

/-- C5: promotion and eviction resize the covariance by exactly 3 and keep
the other entries.  On a well-formed store, a promotion makes the covariance
returned by `Pstate` 3 rows and 3 columns larger, makes
`num_instate_features` one larger, and leaves every prior entry as it was;
evicting the promoted landmark right away gives back exactly the estimator
before the promotion, so `Pstate` returns the pre-promotion covariance; and
any eviction makes the covariance 3 rows and 3 columns smaller,
`num_instate_features` one smaller, and every remaining entry is the entry it
was before (at the index shifted past the removed block). -/
theorem promote_evict_covariance (w : EstimatorWrapper SpecEstimator SpecViewer)
    (hwf : w.estimator_.store.WF) (id : Nat) (cross rows : MatX) (e' : SpecEstimator)
    (hp : w.estimator_.promote id cross rows = some e') :
    let P := (EstimatorWrapper.Pstate specXivo w).1
    let P' := (EstimatorWrapper.Pstate specXivo { w with estimator_ := e' }).1
    (P'.length = P.length + 3 ∧ (∀ row ∈ P', row.length = P.length + 3)) ∧
    (EstimatorWrapper.num_instate_features specXivo { w with estimator_ := e' }).1 =
      (EstimatorWrapper.num_instate_features specXivo w).1 + 1 ∧
    (∀ i j, i < P.length → j < P.length → entry P' i j = entry P i j) ∧
    (e'.evict id = some w.estimator_ ∧
      ∀ e'', e'.evict id = some e'' →
        (EstimatorWrapper.Pstate specXivo { w with estimator_ := e'' }).1 = P) ∧
    (∀ (u : EstimatorWrapper SpecEstimator SpecViewer) (id₂ : Nat) (e₂ : SpecEstimator),
      u.estimator_.store.WF → u.estimator_.evict id₂ = some e₂ →
      let Q := (EstimatorWrapper.Pstate specXivo u).1
      let Q' := (EstimatorWrapper.Pstate specXivo { u with estimator_ := e₂ }).1
      let a := u.estimator_.store.base + landmarkDim * u.estimator_.store.ids.indexOf id₂
      (Q'.length + 3 = Q.length ∧ (∀ row ∈ Q', row.length + 3 = Q.length)) ∧
      (EstimatorWrapper.num_instate_features specXivo { u with estimator_ := e₂ }).1 + 1 =
        (EstimatorWrapper.num_instate_features specXivo u).1 ∧
      (∀ i j, entry Q' i j = entry Q (skipRange a 3 i) (skipRange a 3 j))) := by
  intro P P'
  simp only [SpecEstimator.promote, Option.map_eq_some'] at hp
  obtain ⟨s', hs', rfl⟩ := hp
  obtain ⟨h1, h2, h3, h4, h5⟩ := Store.promote_grows _ hwf id cross rows s' hs'
  have hP : P = w.estimator_.store.P := rfl
  have hP' : P' = s'.P := rfl
  refine ⟨⟨?_, ?_⟩, ?_, ?_, ⟨?_, ?_⟩, ?_⟩
  · rw [hP, hP']
    exact h1
  · intro row hrow
    have hr := h3.2.1 row hrow
    have h1' : s'.P.length = w.estimator_.store.P.length + 3 := h1
    rw [hP, hr, h1']
  · simp only [EstimatorWrapper.num_instate_features, specXivo, h2]
    push_cast
    rfl
  · rw [hP, hP']
    exact h4
  · simp [SpecEstimator.evict, h5]
  · intro e'' he''
    simp only [SpecEstimator.evict, h5, Option.map_some', Option.some.injEq] at he''
    subst he''
    rfl
  · intro u id₂ e₂ huwf he₂ Q Q' a
    simp only [SpecEstimator.evict, Option.map_eq_some'] at he₂
    obtain ⟨t', ht', rfl⟩ := he₂
    obtain ⟨g1, g2, g3, g4⟩ := Store.evict_shrinks _ huwf id₂ t' ht'
    have hQ : Q = u.estimator_.store.P := rfl
    have hQ' : Q' = t'.P := rfl
    refine ⟨⟨?_, ?_⟩, ?_, ?_⟩
    · rw [hQ, hQ']
      exact g1
    · intro row hrow
      have hr := g3.2.1 row hrow
      have g1' : t'.P.length + 3 = u.estimator_.store.P.length := g1
      rw [hQ, hr, g1']
    · simp only [EstimatorWrapper.num_instate_features, specXivo, ← g2]
      push_cast
      rfl
    · intro i j
      rw [hQ, hQ']
      exact g4 i j

/-- C5 at a concrete input: landmark 7 promoted into a store with a 2x2
covariance; the covariance becomes 5x5. -/
theorem promote_evict_covariance_witness :
    specWrapper2.estimator_.store.WF ∧
    specWrapper2.estimator_.promote 7 cross2 rows2 = some specEstimator2p ∧
    (EstimatorWrapper.Pstate specXivo
      { specWrapper2 with estimator_ := specEstimator2p }).1.length =
      (EstimatorWrapper.Pstate specXivo specWrapper2).1.length + 3 ∧
    specEstimator2p.evict 7 = some specWrapper2.estimator_ :=
  have hwf : specWrapper2.estimator_.store.WF := by decide
  have hp : specWrapper2.estimator_.promote 7 cross2 rows2 = some specEstimator2p := by
    decide
  ⟨hwf, hp,
    (promote_evict_covariance specWrapper2 hwf 7 cross2 rows2 specEstimator2p hp).1.1,
    (promote_evict_covariance specWrapper2 hwf 7 cross2 rows2 specEstimator2p hp).2.2.2.1.1⟩

/-- C9 at a concrete input: an array of shape 1x2 with two elements; element
`(0, 1)` of the image is the second element of the buffer, and the read of
element `(0, 2)` is already outside the buffer. -/
theorem VisualMeas2_fixed_shape_witness :
    (CvMat.mk 640 480 CvType.CV_32S (PyArray.mk [1, 2] [7, 8]).buffer).read 0 1 = some 8 ∧
    (CvMat.mk 640 480 CvType.CV_32S (PyArray.mk [1, 2] [7, 8]).buffer).read 0 2 = none :=
  (VisualMeas2_fixed_shape specXivo specProcess specWrapper 4 (PyArray.mk [1, 2] [7, 8])).elim
    (fun image h => by
      obtain ⟨_, _, himg, _, _, _, hread, _, _⟩ := h
      subst himg
      exact ⟨hread 0 1 (by decide) (by decide), hread 0 2 (by decide) (by decide)⟩)

end Theorems

end PyXivo
